import Mathlib

/-!
A verification development for the number-hold and balance-ledger engine of
the argsms Telegram bot.  The Python data-access layer (`src/database.py`)
and the bot flows that drive it (`src/bot.py`) are shallowly embedded as
pure Lean functions over an explicit relational state `DB`.  SQLAlchemy
rows become structures, tables become lists kept in insertion order
(`query(...).first()` is `List.find?`, `query(...).delete()` is a filter),
monetary `Float` columns are modelled as exact rationals, and `datetime`
values as natural-number timestamps counted in seconds.
-/

namespace Argsms

/-- A row of the `users` table (`database.py`, class `User`).  `id` is the
primary key; presentation columns the embedded operations never read
(`telegram_id`, `username`, `is_admin`, `is_banned`, `created_at`) are
omitted. -/
structure UserRow where
  id : Nat
  balance : Rat
  total_spent : Rat
  total_sms_received : Nat
  deriving Repr, DecidableEq

/-- A row of the `ranges` table (class `Range`): `unique_id` is the
hash-derived identifier, `name` the display name. -/
structure RangeRow where
  id : Nat
  unique_id : String
  name : String
  deriving Repr, DecidableEq

/-- A row of the `phone_numbers` table (class `PhoneNumber`): belongs to the
range with primary key `range_id`. -/
structure PhoneRow where
  id : Nat
  range_id : Nat
  number : String
  deriving Repr, DecidableEq

/-- A row of the `number_holds` table (class `NumberHold`).  `range_id`
stores the owning range's `unique_id` string, `phone_number_id` is null for
legacy holds. -/
structure Hold where
  user_id : Nat
  phone_number_id : Option Nat
  phone_number_str : String
  range_id : String
  hold_start_time : Nat
  first_retry_time : Option Nat
  is_permanent : Bool
  deriving Repr, DecidableEq

/-- A row of the `price_ranges` table (class `PriceRange`). -/
structure PriceRow where
  range_unique_id : String
  range_name : String
  price : Rat
  deriving Repr, DecidableEq

/-- A row of the `transactions` table (class `Transaction`): `amount` is
positive for credit, negative for debit. -/
structure TransactionRow where
  user_id : Nat
  amount : Rat
  transaction_type : String
  description : Option String
  deriving Repr, DecidableEq

/-- The relational store: one list per table, in insertion order, plus the
autoincrement counters for the two tables whose generated primary keys the
code reads back. -/
structure DB where
  users : List UserRow
  ranges : List RangeRow
  phone_numbers : List PhoneRow
  holds : List Hold
  price_ranges : List PriceRow
  transactions : List TransactionRow
  nextRangeId : Nat
  nextPhoneId : Nat
  deriving Repr, DecidableEq

/-- Replace the first element satisfying `p` by its image under `f`
(an ORM mutation of the row returned by `query(...).first()`). -/
def updateFirst (p : α → Bool) (f : α → α) : List α → List α
  | [] => []
  | x :: xs => if p x then f x :: xs else x :: updateFirst p f xs

/-- Mutate the users row with primary key `uid` (ids are unique in the
schema, so this is the ORM's single-object mutation). -/
def updateUser (uid : Nat) (f : UserRow → UserRow) (users : List UserRow) : List UserRow :=
  users.map fun u => if u.id == uid then f u else u

/-- `query(User).get(uid)`. -/
def findUser (db : DB) (uid : Nat) : Option UserRow :=
  db.users.find? (·.id == uid)

/-- `add_user_balance` (`database.py` 323-334): unconditionally adds
`amount` to the balance and appends the matching transaction; returns the
new balance.  The `none` branch models the absent-row case the bot
precludes by `get_or_create_user`. -/
def add_user_balance (db : DB) (uid : Nat) (amount : Rat)
    (ttype : String) (descr : Option String) : DB × Option Rat :=
  match findUser db uid with
  | none => (db, none)
  | some u =>
    ({ db with
        users := updateUser uid (fun v => { v with balance := v.balance + amount }) db.users,
        transactions := db.transactions ++
          [{ user_id := uid, amount := amount, transaction_type := ttype,
             description := descr }] },
      some (u.balance + amount))

/-- `deduct_user_balance` (`database.py` 337-351): returns `none` with no
mutation when `balance < amount`; otherwise subtracts from the balance,
adds to `total_spent` and appends a transaction of `-amount`. -/
def deduct_user_balance (db : DB) (uid : Nat) (amount : Rat)
    (ttype : String) (descr : Option String) : DB × Option Rat :=
  match findUser db uid with
  | none => (db, none)
  | some u =>
    if u.balance < amount then (db, none)
    else
      ({ db with
          users := updateUser uid
            (fun v => { v with balance := v.balance - amount,
                               total_spent := v.total_spent + amount }) db.users,
          transactions := db.transactions ++
            [{ user_id := uid, amount := -amount, transaction_type := ttype,
               description := descr }] },
        some (u.balance - amount))

/-- `get_price_for_range` (`database.py` 354-362): the stored price, or the
default `1.0` when no `price_ranges` row exists. -/
def get_price_for_range (db : DB) (range_unique_id : String) : Rat :=
  match db.price_ranges.find? (·.range_unique_id == range_unique_id) with
  | some pr => pr.price
  | none => 1

/-- `create_number_holds` (`database.py` 365-391): deletes all of the
user's non-permanent holds, then appends one fresh temporary hold per id
that resolves in the `phone_numbers` table. -/
def create_number_holds (db : DB) (uid : Nat) (phone_number_ids : List Nat)
    (range_unique_id : String) (now : Nat) : DB × List Hold :=
  let kept := db.holds.filter fun h => !(h.user_id == uid && !h.is_permanent)
  let newHolds := phone_number_ids.filterMap fun i =>
    (db.phone_numbers.find? (·.id == i)).map fun p =>
      { user_id := uid, phone_number_id := some p.id, phone_number_str := p.number,
        range_id := range_unique_id, hold_start_time := now,
        first_retry_time := none, is_permanent := false }
  ({ db with holds := kept ++ newHolds }, newHolds)

/-- The row predicate of `mark_number_permanent`'s query: this user's
first still-temporary hold on the given number string. -/
def markPred (uid : Nat) (phone : String) (h : Hold) : Bool :=
  h.user_id == uid && h.phone_number_str == phone && !h.is_permanent

/-- `mark_number_permanent` (`database.py` 394-406): promotes the first
matching temporary hold and increments the user's `total_sms_received`;
returns whether a hold was found. -/
def mark_number_permanent (db : DB) (uid : Nat) (phone : String) : DB × Bool :=
  match db.holds.find? (markPred uid phone) with
  | none => (db, false)
  | some _ =>
    ({ db with
        holds := updateFirst (markPred uid phone)
          (fun h => { h with is_permanent := true }) db.holds,
        users := updateUser uid
          (fun v => { v with total_sms_received := v.total_sms_received + 1 }) db.users },
      true)

/-- The deletion predicate of `create_number_holds`' opening bulk delete
(`database.py` 370-372): this user's non-permanent holds. -/
def userTempPred (uid : Nat) (h : Hold) : Bool :=
  h.user_id == uid && !h.is_permanent

/-- A user's permanent holds (the holds `create_number_holds` and the
sweep must both leave alone). -/
def userPermPred (uid : Nat) (h : Hold) : Bool :=
  h.user_id == uid && h.is_permanent

/-- The expiry grace period: 5 minutes, in seconds. -/
def gracePeriod : Nat := 300

/-- The deletion predicate of `cleanup_expired_holds`: non-permanent, with
`first_retry_time` set and strictly more than the grace period in the
past (`first_retry_time < now - 5 minutes`). -/
def expiredHold (now : Nat) (h : Hold) : Bool :=
  !h.is_permanent &&
    (match h.first_retry_time with
     | some t => t + gracePeriod < now
     | none => false)

/-- `cleanup_expired_holds` (`database.py` 423-436): deletes every expired
hold.  The Python function has no `return` statement, so its value is
`None` — modelled as `none` in the count position its caller reads. -/
def cleanup_expired_holds (db : DB) (now : Nat) : DB × Option Nat :=
  ({ db with holds := db.holds.filter fun h => !expiredHold now h }, none)

/-- The row predicate of `update_first_retry_time`'s query (no
`is_permanent` filter). -/
def holdPred (uid : Nat) (phone : String) (h : Hold) : Bool :=
  h.user_id == uid && h.phone_number_str == phone

/-- `update_first_retry_time` (`database.py` 439-450): stamps the first
matching hold's `first_retry_time`, only if it is still null. -/
def update_first_retry_time (db : DB) (uid : Nat) (phone : String) (now : Nat) :
    DB × Bool :=
  match db.holds.find? (holdPred uid phone) with
  | none => (db, false)
  | some h =>
    if h.first_retry_time.isNone then
      let holds := updateFirst (holdPred uid phone)
        (fun h => { h with first_retry_time := some now }) db.holds
      ({ db with holds := holds }, true)
    else (db, false)

/-- The ids of phone numbers referenced by any hold, temporary or
permanent (the subquery of `get_available_numbers_for_range`). -/
def heldPhoneIds (db : DB) : List Nat :=
  db.holds.filterMap (·.phone_number_id)

/-- `get_range_by_unique_id` (`database.py` 558-560). -/
def get_range_by_unique_id (db : DB) (unique_id : String) : Option RangeRow :=
  db.ranges.find? (·.unique_id == unique_id)

/-- The full available pool of a range (the query of
`get_available_numbers_for_range` before its fetch `limit` is applied):
the range's numbers not referenced by any hold. -/
def availAll (db : DB) (range_unique_id : String) : List PhoneRow :=
  match get_range_by_unique_id db range_unique_id with
  | none => []
  | some r =>
    db.phone_numbers.filter fun p =>
      p.range_id == r.id && !(heldPhoneIds db).contains p.id

/-- `get_available_numbers_for_range` (`database.py` 563-582): the
available pool, truncated to `limit` rows. -/
def get_available_numbers_for_range (db : DB) (range_unique_id : String)
    (limit : Nat) : List PhoneRow :=
  (availAll db range_unique_id).take limit

/-- `SMS_FETCH_COUNT` (`bot.py` 86). -/
def SMS_FETCH_COUNT : Nat := 100

/-- `SMS_DISPLAY_COUNT` (`bot.py` 87): the allocation batch size. -/
def SMS_DISPLAY_COUNT : Nat := 20

/-- The outcome of the allocation flow, one constructor per early return
of `view_sms_numbers_callback`. -/
inductive AllocResult where
  | rangeNotFound
  | userNotFound
  | insufficientBalance
  | noAvailable
  | notEnough (available : Nat)
  | allocated (sel : List PhoneRow)
  deriving Repr, DecidableEq

/-- The allocation flow `view_sms_numbers_callback` (`bot.py` 554-645):
sweep expired holds, resolve the range and its price, check the balance
against the unit price, read the available pool, and on success create
the temporary holds for the chosen batch.  `sel` stands for the value of
`random.sample(available_numbers, SMS_DISPLAY_COUNT)`; theorems constrain
it to be a duplicate-free choice from the available list. -/
def view_sms_numbers (db : DB) (uid : Nat) (range_unique_id : String)
    (sel : List PhoneRow) (now : Nat) : DB × AllocResult :=
  let db := (cleanup_expired_holds db now).1
  match get_range_by_unique_id db range_unique_id with
  | none => (db, .rangeNotFound)
  | some _ =>
    let price := get_price_for_range db range_unique_id
    match findUser db uid with
    | none => (db, .userNotFound)
    | some u =>
      if u.balance < price then (db, .insufficientBalance)
      else
        let available := get_available_numbers_for_range db range_unique_id SMS_FETCH_COUNT
        if available.isEmpty then (db, .noAvailable)
        else if available.length < SMS_DISPLAY_COUNT then (db, .notEnough available.length)
        else
          ((create_number_holds db uid (sel.map (·.id)) range_unique_id now).1,
            .allocated sel)

/-- The side condition on the sampled batch: `random.sample` returns
`SMS_DISPLAY_COUNT` distinct elements of the available list (the pool is
read in the state left by the flow's opening sweep). -/
def SelOk (db : DB) (range_unique_id : String) (sel : List PhoneRow) (now : Nat) : Prop :=
  sel.Nodup ∧ sel.length = SMS_DISPLAY_COUNT ∧
    ∀ p ∈ sel,
      p ∈ get_available_numbers_for_range (cleanup_expired_holds db now).1
            range_unique_id SMS_FETCH_COUNT

/-- The outcome of the SMS-search flow, one constructor per ledger-relevant
branch of `handle_phone_search`. -/
inductive ConfirmResult where
  | notHeld
  | noSms
  | insufficientFunds
  | billed (price : Rat)
  | alreadyBilled
  deriving Repr, DecidableEq

/-- The flow's opening stamp: `if not held_number.first_retry_time:
update_first_retry_time(...)` (`bot.py` 1706-1708). -/
def retryIfFirst (db : DB) (uid : Nat) (phone : String) (held : Hold) (now : Nat) : DB :=
  if held.first_retry_time.isNone then (update_first_retry_time db uid phone now).1
  else db

/-- The billing core of `handle_phone_search` (`bot.py` 1693-1785), after
the presentation-layer ban/membership gates: look up the user's hold on
the number, stamp `first_retry_time` on the first search, and when the
scraper reports an SMS (`smsFound`) debit the unit price and only then
promote the hold; a hold that is already permanent is not re-billed. -/
def handle_phone_search (db : DB) (uid : Nat) (phone : String)
    (smsFound : Bool) (now : Nat) : DB × ConfirmResult :=
  match db.holds.find? (holdPred uid phone) with
  | none => (db, .notHeld)
  | some held =>
    let db := retryIfFirst db uid phone held now
    if !smsFound then (db, .noSms)
    else if held.is_permanent then (db, .alreadyBilled)
    else
      let price := get_price_for_range db held.range_id
      match deduct_user_balance db uid price "sms_charge"
          (some ("SMS received on " ++ phone)) with
      | (db, none) => (db, .insufficientFunds)
      | (db, some _) => ((mark_number_permanent db uid phone).1, .billed price)

/-- The admin "add balance" amount step (`bot.py` 2283-2318): rejects a
non-positive parsed amount before ever calling `add_user_balance`. -/
def admin_add_balance_amount (db : DB) (uid : Nat) (amount : Rat)
    (adminId : Nat) : DB × Bool :=
  if amount ≤ 0 then (db, false)
  else
    ((add_user_balance db uid amount "admin_add"
        (some ("Admin added by " ++ toString adminId))).1, true)

/-- The admin "deduct balance" amount step (`bot.py` 2348-2393): rejects a
non-positive parsed amount, then rejects an insufficient balance, before
calling `deduct_user_balance`. -/
def admin_deduct_balance_amount (db : DB) (uid : Nat) (amount : Rat)
    (adminId : Nat) : DB × Bool :=
  if amount ≤ 0 then (db, false)
  else
    match findUser db uid with
    | none => (db, false)
    | some u =>
      if u.balance < amount then (db, false)
      else
        ((deduct_user_balance db uid amount "admin_deduct"
            (some ("Admin deducted by " ++ toString adminId))).1, true)

/-- One import row's processing (`import_csv_data`, `database.py` 487-530),
threaded through the `(db, success_count, error_count)` accumulator.
`uid_of` stands for `generate_range_unique_id` (`database.py` 455-459),
which derives the range's stable id purely from its name (an MD5-prefix
hex string, treated here as an abstract deterministic name-to-id map).
A row with a missing field is an error; the range row is found or created
by that derived id; a number already catalogued is re-pointed at the
current range when its range differs, otherwise left alone; a new number
is appended. -/
def import_row (uid_of : String → String) (st : DB × Nat × Nat)
    (row : String × String) : DB × Nat × Nat :=
  let db := st.1
  let s := st.2.1
  let e := st.2.2
  let rangeName := row.1
  let number := row.2
  if rangeName == "" || number == "" then (db, s, e + 1)
  else
    let ruid := uid_of rangeName
    let (db, robj) :=
      match db.ranges.find? (·.unique_id == ruid) with
      | some r => (db, r)
      | none =>
        let r : RangeRow := { id := db.nextRangeId, unique_id := ruid, name := rangeName }
        ({ db with ranges := db.ranges ++ [r], nextRangeId := db.nextRangeId + 1 }, r)
    match db.phone_numbers.find? (·.number == number) with
    | some p =>
      if p.range_id ≠ robj.id then
        let pns := updateFirst (·.number == number)
          (fun q => { q with range_id := robj.id }) db.phone_numbers
        ({ db with phone_numbers := pns }, s + 1, e)
      else (db, s, e)
    | none =>
      ({ db with
          phone_numbers := db.phone_numbers ++
            [{ id := db.nextPhoneId, range_id := robj.id, number := number }],
          nextPhoneId := db.nextPhoneId + 1 }, s + 1, e)

/-- The row loop of `import_csv_data` (`database.py` 462-543) over the
already-parsed `(range_name, number)` pairs, returning the final store and
the success and error counts. -/
def import_csv_rows (uid_of : String → String) (db : DB)
    (rows : List (String × String)) : DB × Nat × Nat :=
  rows.foldl (import_row uid_of) (db, 0, 0)

/-- A parsed import row the store already reflects: both fields non-empty,
the range row exists under the id derived from the name, and the number
row exists pointing at that range. -/
def RowSettled (uid_of : String → String) (db : DB) (row : String × String) : Prop :=
  row.1 ≠ "" ∧ row.2 ≠ "" ∧
    ∃ r, db.ranges.find? (·.unique_id == uid_of row.1) = some r ∧
      ∃ p, db.phone_numbers.find? (·.number == row.2) = some p ∧ p.range_id = r.id

/-- The sum of the signed transaction amounts booked to one user: the
ledger projection the cached balance must track. -/
def txSum (txs : List TransactionRow) (uid : Nat) : Rat :=
  ((txs.filter (·.user_id == uid)).map (·.amount)).sum

/-- Ledger consistency: every user's cached balance equals the sum of that
user's transaction amounts. -/
def LedgerOK (db : DB) : Prop :=
  ∀ u ∈ db.users, u.balance = txSum db.transactions u.id

/-- The inventory invariant: no two holds reference the same catalogued
phone number, and the `phone_numbers` table has no duplicate primary
keys. -/
def HoldInv (db : DB) : Prop :=
  (db.holds.filterMap (·.phone_number_id)).Nodup ∧
    (db.phone_numbers.map (·.id)).Nodup

/-- One atomic step of the core engine: the five operations the ledger
claims quantify over (credit, debit, allocation, promotion via the search
flow, and the expiry sweep), each as the bot invokes it. -/
inductive Step : DB → DB → Prop where
  | credit (db : DB) (uid : Nat) (amount : Rat) (ttype : String) (descr : Option String) :
      Step db (add_user_balance db uid amount ttype descr).1
  | debit (db : DB) (uid : Nat) (amount : Rat) (ttype : String) (descr : Option String) :
      Step db (deduct_user_balance db uid amount ttype descr).1
  | alloc (db : DB) (uid : Nat) (ruid : String) (sel : List PhoneRow) (now : Nat)
      (hsel : SelOk db ruid sel now) :
      Step db (view_sms_numbers db uid ruid sel now).1
  | search (db : DB) (uid : Nat) (phone : String) (smsFound : Bool) (now : Nat) :
      Step db (handle_phone_search db uid phone smsFound now).1
  | sweep (db : DB) (now : Nat) :
      Step db (cleanup_expired_holds db now).1

/-- Reachability under the core operations. -/
def Reachable (db db' : DB) : Prop :=
  Relation.ReflTransGen Step db db'

/-! ### Concrete stores for counterexamples and witnesses -/

/-- A sample user. -/
def userA : UserRow :=
  { id := 1, balance := 10, total_spent := 0, total_sms_received := 0 }

/-- A sample range. -/
def rangeA : RangeRow := { id := 1, unique_id := "ra", name := "Range A" }

/-- A second sample range. -/
def rangeB : RangeRow := { id := 2, unique_id := "rb", name := "Range B" }

/-- 25 catalogued numbers in range A. -/
def phonesA : List PhoneRow :=
  (List.range 25).map fun i => { id := i + 1, range_id := 1, number := "A" ++ toString (i + 1) }

/-- 25 catalogued numbers in range B. -/
def phonesB : List PhoneRow :=
  (List.range 25).map fun i => { id := i + 26, range_id := 2, number := "B" ++ toString (i + 1) }

/-- A base store: one funded user, two ranges of 25 numbers, range A
priced at 2, no holds. -/
def baseDb : DB :=
  { users := [userA], ranges := [rangeA, rangeB],
    phone_numbers := phonesA ++ phonesB, holds := [],
    price_ranges := [{ range_unique_id := "ra", range_name := "Range A", price := 2 }],
    transactions := [], nextRangeId := 3, nextPhoneId := 51 }

/-- The base store with the user's balance set to 5 (the C7 scenario). -/
def db7 : DB := { baseDb with users := [{ userA with balance := 5 }] }

/-- The first-20 batch of range A's pool. -/
def sel20A : List PhoneRow := (availAll db7 "ra").take 20

/-- The first 20 numbers of range A, as a concrete batch. -/
def selA20 : List PhoneRow := phonesA.take 20

/-- The first 20 numbers of range B, as a concrete batch. -/
def selB20 : List PhoneRow := phonesB.take 20

/-- An expired temporary hold: first searched at 600 s, so past the
5-minute grace period at 1000 s. -/
def holdExpired : Hold :=
  { user_id := 1, phone_number_id := some 1, phone_number_str := "A1",
    range_id := "ra", hold_start_time := 0, first_retry_time := some 600,
    is_permanent := false }

/-- The base store holding one expired temporary hold. -/
def db9 : DB := { baseDb with holds := [holdExpired] }

/-- A live temporary hold on number A1. -/
def holdTemp : Hold :=
  { user_id := 1, phone_number_id := some 1, phone_number_str := "A1",
    range_id := "ra", hold_start_time := 0, first_retry_time := some 10,
    is_permanent := false }

/-- A permanent (already billed) hold on number A1. -/
def holdPerm : Hold := { holdTemp with is_permanent := true }

/-- The base store with an already-permanent hold. -/
def dbPerm : DB := { baseDb with holds := [holdPerm] }

/-- A store whose user cannot afford range A's price. -/
def dbPoor : DB :=
  { baseDb with users := [{ userA with balance := 1 }], holds := [holdTemp] }

/-- A store with an empty ledger, consistent with its zero balance. -/
def ledgerDb : DB := { baseDb with users := [{ userA with balance := 0 }] }

/-- A store for the import counterexample: number 123 catalogued in an
existing range named X. -/
def db10 : DB :=
  { users := [], ranges := [{ id := 1, unique_id := "X", name := "X" }],
    phone_numbers := [{ id := 1, range_id := 1, number := "123" }],
    holds := [], price_ranges := [], transactions := [],
    nextRangeId := 2, nextPhoneId := 2 }

/-- The import store with a second range Y already catalogued. -/
def db10b : DB :=
  { db10 with ranges := [{ id := 1, unique_id := "X", name := "X" },
      { id := 2, unique_id := "Y", name := "Y" }], nextRangeId := 3 }

/-! ## Supporting lemmas -/

theorem updateFirst_map_eq {α β : Type} (p : α → Bool) (f : α → α) (g : α → β)
    (hg : ∀ x, p x = true → g (f x) = g x) :
    ∀ l : List α, (updateFirst p f l).map g = l.map g
  | [] => rfl
  | x :: xs => by
    simp only [updateFirst]
    split
    · simp only [List.map_cons]
      rw [hg x ‹_›]
    · simp only [List.map_cons, updateFirst_map_eq p f g hg xs]

theorem updateFirst_filterMap_eq {α β : Type} (p : α → Bool) (f : α → α) (g : α → Option β)
    (hg : ∀ x, p x = true → g (f x) = g x) :
    ∀ l : List α, (updateFirst p f l).filterMap g = l.filterMap g
  | [] => rfl
  | x :: xs => by
    simp only [updateFirst]
    split
    · simp only [List.filterMap_cons]
      rw [hg x ‹_›]
    · simp only [List.filterMap_cons, updateFirst_filterMap_eq p f g hg xs]

theorem find?_updateFirst_of_disjoint {α : Type} (p q : α → Bool) (f : α → α)
    (hpq : ∀ x, q x = true → p x = false) (hf : ∀ x, q x = true → p (f x) = p x) :
    ∀ l : List α, (updateFirst q f l).find? p = l.find? p
  | [] => rfl
  | x :: xs => by
    simp only [updateFirst]
    split
    · have hx : p x = false := hpq x ‹_›
      have hfx : p (f x) = false := by rw [hf x ‹_›, hx]
      rw [List.find?_cons_of_neg _ (by simp [hfx]), List.find?_cons_of_neg _ (by simp [hx])]
    · by_cases hx : p x = true
      · rw [List.find?_cons_of_pos _ hx, List.find?_cons_of_pos _ hx]
      · rw [List.find?_cons_of_neg _ hx, List.find?_cons_of_neg _ hx,
          find?_updateFirst_of_disjoint p q f hpq hf xs]

theorem find?_updateFirst_self {α : Type} (p : α → Bool) (f : α → α)
    (hf : ∀ x, p x = true → p (f x) = true) :
    ∀ l : List α, (updateFirst p f l).find? p = (l.find? p).map f
  | [] => rfl
  | x :: xs => by
    simp only [updateFirst]
    split
    · rw [List.find?_cons_of_pos _ (hf x ‹_›), List.find?_cons_of_pos _ ‹_›]
      rfl
    · rename_i hx
      rw [List.find?_cons_of_neg _ (by simp [Bool.not_eq_true] at hx ⊢; exact hx),
        List.find?_cons_of_neg _ (by simp [Bool.not_eq_true] at hx ⊢; exact hx),
        find?_updateFirst_self p f hf xs]

theorem updateUser_map_eq {β : Type} {uid : Nat} {f : UserRow → UserRow} (g : UserRow → β)
    (hg : ∀ u, g (f u) = g u) (users : List UserRow) :
    (updateUser uid f users).map g = users.map g := by
  induction users with
  | nil => rfl
  | cons u us ih =>
    simp only [updateUser, List.map_cons] at ih ⊢
    rw [apply_ite g, hg, ite_self, ih]

/-- The identity of a hold apart from its mutable `first_retry_time`
stamp. -/
def holdCore (h : Hold) : Nat × Option Nat × String × String × Nat × Bool :=
  (h.user_id, h.phone_number_id, h.phone_number_str, h.range_id,
    h.hold_start_time, h.is_permanent)

theorem cleanup_frame (db : DB) (now : Nat) :
    ((cleanup_expired_holds db now).1).users = db.users ∧
    ((cleanup_expired_holds db now).1).transactions = db.transactions ∧
    ((cleanup_expired_holds db now).1).price_ranges = db.price_ranges ∧
    ((cleanup_expired_holds db now).1).ranges = db.ranges ∧
    ((cleanup_expired_holds db now).1).phone_numbers = db.phone_numbers :=
  ⟨rfl, rfl, rfl, rfl, rfl⟩

theorem cleanup_holds (db : DB) (now : Nat) :
    ((cleanup_expired_holds db now).1).holds =
      db.holds.filter fun h => !expiredHold now h := rfl

theorem create_holds_frame (db : DB) (uid : Nat) (ids : List Nat) (ruid : String) (now : Nat) :
    ((create_number_holds db uid ids ruid now).1).users = db.users ∧
    ((create_number_holds db uid ids ruid now).1).transactions = db.transactions ∧
    ((create_number_holds db uid ids ruid now).1).price_ranges = db.price_ranges ∧
    ((create_number_holds db uid ids ruid now).1).ranges = db.ranges ∧
    ((create_number_holds db uid ids ruid now).1).phone_numbers = db.phone_numbers :=
  ⟨rfl, rfl, rfl, rfl, rfl⟩

theorem update_first_retry_frame (db : DB) (uid : Nat) (phone : String) (now : Nat) :
    ((update_first_retry_time db uid phone now).1).users = db.users ∧
    ((update_first_retry_time db uid phone now).1).transactions = db.transactions ∧
    ((update_first_retry_time db uid phone now).1).price_ranges = db.price_ranges ∧
    ((update_first_retry_time db uid phone now).1).ranges = db.ranges ∧
    ((update_first_retry_time db uid phone now).1).phone_numbers = db.phone_numbers := by
  unfold update_first_retry_time
  cases hf : db.holds.find? (holdPred uid phone) with
  | none => exact ⟨rfl, rfl, rfl, rfl, rfl⟩
  | some h =>
    by_cases hr : h.first_retry_time.isNone <;> simp [hr]

theorem update_first_retry_holds_core (db : DB) (uid : Nat) (phone : String) (now : Nat) :
    (((update_first_retry_time db uid phone now).1).holds).map holdCore =
      db.holds.map holdCore := by
  cases hf : db.holds.find? (holdPred uid phone) with
  | none => simp only [update_first_retry_time, hf]
  | some h =>
    simp only [update_first_retry_time, hf]
    by_cases hr : h.first_retry_time.isNone
    · rw [if_pos hr]
      exact updateFirst_map_eq (holdPred uid phone)
        (fun h => { h with first_retry_time := some now }) holdCore (fun x _ => rfl) db.holds
    · rw [if_neg hr]

theorem retryIfFirst_frame (db : DB) (uid : Nat) (phone : String) (held : Hold) (now : Nat) :
    (retryIfFirst db uid phone held now).users = db.users ∧
    (retryIfFirst db uid phone held now).transactions = db.transactions ∧
    (retryIfFirst db uid phone held now).price_ranges = db.price_ranges ∧
    (retryIfFirst db uid phone held now).ranges = db.ranges ∧
    (retryIfFirst db uid phone held now).phone_numbers = db.phone_numbers := by
  unfold retryIfFirst
  split
  · exact update_first_retry_frame db uid phone now
  · exact ⟨rfl, rfl, rfl, rfl, rfl⟩

theorem retryIfFirst_holds_core (db : DB) (uid : Nat) (phone : String) (held : Hold) (now : Nat) :
    ((retryIfFirst db uid phone held now).holds).map holdCore = db.holds.map holdCore := by
  unfold retryIfFirst
  split
  · exact update_first_retry_holds_core db uid phone now
  · rfl

theorem findUser_congr {db db' : DB} (h : db'.users = db.users) (uid : Nat) :
    findUser db' uid = findUser db uid := by
  unfold findUser; rw [h]

theorem get_price_congr {db db' : DB} (h : db'.price_ranges = db.price_ranges) (ruid : String) :
    get_price_for_range db' ruid = get_price_for_range db ruid := by
  unfold get_price_for_range; rw [h]

theorem add_user_balance_some {db : DB} {uid : Nat} {u : UserRow}
    (h : findUser db uid = some u) (a : Rat) (t : String) (d : Option String) :
    add_user_balance db uid a t d =
      ({ db with
          users := updateUser uid (fun v => { v with balance := v.balance + a }) db.users,
          transactions := db.transactions ++
            [{ user_id := uid, amount := a, transaction_type := t, description := d }] },
        some (u.balance + a)) := by
  simp only [add_user_balance, h]

theorem deduct_user_balance_insufficient {db : DB} {uid : Nat} {u : UserRow}
    (h : findUser db uid = some u) {a : Rat} (hlt : u.balance < a)
    (t : String) (d : Option String) :
    deduct_user_balance db uid a t d = (db, none) := by
  simp only [deduct_user_balance, h, if_pos hlt]

theorem deduct_user_balance_some {db : DB} {uid : Nat} {u : UserRow}
    (h : findUser db uid = some u) {a : Rat} (hge : ¬u.balance < a)
    (t : String) (d : Option String) :
    deduct_user_balance db uid a t d =
      ({ db with
          users := updateUser uid
            (fun v => { v with balance := v.balance - a,
                               total_spent := v.total_spent + a }) db.users,
          transactions := db.transactions ++
            [{ user_id := uid, amount := -a, transaction_type := t, description := d }] },
        some (u.balance - a)) := by
  simp only [deduct_user_balance, h, if_neg hge]

theorem mark_frame (db : DB) (uid : Nat) (phone : String) :
    ((mark_number_permanent db uid phone).1).transactions = db.transactions ∧
    ((mark_number_permanent db uid phone).1).price_ranges = db.price_ranges ∧
    ((mark_number_permanent db uid phone).1).ranges = db.ranges ∧
    ((mark_number_permanent db uid phone).1).phone_numbers = db.phone_numbers := by
  unfold mark_number_permanent
  cases hf : db.holds.find? (markPred uid phone) with
  | none => exact ⟨rfl, rfl, rfl, rfl⟩
  | some h => exact ⟨rfl, rfl, rfl, rfl⟩

/-! ## Claim theorems and witnesses -/

/-- C6: expiry-sweep scoping.  A hold survives `cleanup_expired_holds`
exactly when it is not an expired temporary hold: it is deleted iff
`is_permanent` is false, its first search time is set, and that time is
strictly more than the 5-minute grace period before `now`.  In
particular a permanent hold is never removed, a hold whose first search
time is null is never removed regardless of `hold_start_time`, a hold
first searched 4 minutes ago survives, and a still-temporary hold first
searched 6 minutes ago is removed. -/
theorem sweep_scope (db : DB) (now : Nat) (h : Hold) :
    h ∈ ((cleanup_expired_holds db now).1).holds ↔
      h ∈ db.holds ∧
        ¬(h.is_permanent = false ∧
          ∃ t, h.first_retry_time = some t ∧ t + gracePeriod < now) := by
  have hiff : expiredHold now h = true ↔
      h.is_permanent = false ∧
        ∃ t, h.first_retry_time = some t ∧ t + gracePeriod < now := by
    unfold expiredHold
    cases ht : h.first_retry_time with
    | none => simp [ht]
    | some t => cases hp : h.is_permanent <;> simp [ht, hp]
  have key : (!expiredHold now h) = true ↔
      ¬(h.is_permanent = false ∧
        ∃ t, h.first_retry_time = some t ∧ t + gracePeriod < now) := by
    rw [← hiff]
    cases expiredHold now h <;> simp
  rw [cleanup_holds, List.mem_filter, key]

/-- C9: the sweep's return value.  On a store holding exactly one expired
temporary hold, `cleanup_expired_holds` deletes that hold but returns
`None` (the Python function has no return statement), not the count 1
that the admin caller formats into "Cleaned up {cleaned} expired
holds". -/
theorem sweep_returns_none :
    (cleanup_expired_holds db9 1000).2 = none ∧
      db9.holds.length = 1 ∧
      ((cleanup_expired_holds db9 1000).1).holds.length = 0 := by
  refine ⟨rfl, rfl, ?_⟩
  decide

/-- C8 counterexample: neither ledger function rejects a non-positive
amount.  On the base store (balance 10), crediting −3 mutates the balance
to 7 and appends a transaction, and debiting −3 mutates the balance to 13
(and `total_spent` to −3) and appends a transaction — the claimed
precondition rejection with no state change does not happen. -/
theorem ledger_negative_amount_counterexample :
    ((add_user_balance baseDb 1 (-3) "admin_add" none).1).transactions =
      [{ user_id := 1, amount := -3, transaction_type := "admin_add", description := none }] ∧
    findUser ((add_user_balance baseDb 1 (-3) "admin_add" none).1) 1 =
      some { id := 1, balance := 7, total_spent := 0, total_sms_received := 0 } ∧
    ((deduct_user_balance baseDb 1 (-3) "admin_deduct" none).1).transactions =
      [{ user_id := 1, amount := 3, transaction_type := "admin_deduct", description := none }] ∧
    findUser ((deduct_user_balance baseDb 1 (-3) "admin_deduct" none).1) 1 =
      some { id := 1, balance := 13, total_spent := -3, total_sms_received := 0 } := by
  refine ⟨?_, ?_, ?_, ?_⟩ <;>
    simp [add_user_balance, deduct_user_balance, findUser, updateUser, baseDb, userA] <;>
    norm_num

/-- C8 amended: the non-positive-amount rejection lives in the admin
conversation steps of the bot, which return with no state change for
`amount ≤ 0`; the ledger functions themselves perform no precondition
check — for any amount, also non-positive ones, `add_user_balance`
mutates the balance and appends a transaction, and `deduct_user_balance`
does the same whenever the balance is at least the amount. -/
theorem ledger_no_precondition_check :
    (∀ (db : DB) (uid : Nat) (a : Rat) (aid : Nat), a ≤ 0 →
      admin_add_balance_amount db uid a aid = (db, false) ∧
      admin_deduct_balance_amount db uid a aid = (db, false)) ∧
    (∀ (db : DB) (uid : Nat) (a : Rat) (t : String) (d : Option String) (u : UserRow),
      a ≤ 0 → findUser db uid = some u → a ≤ u.balance →
      (add_user_balance db uid a t d).2 = some (u.balance + a) ∧
      ((add_user_balance db uid a t d).1).transactions =
        db.transactions ++
          [{ user_id := uid, amount := a, transaction_type := t, description := d }] ∧
      (deduct_user_balance db uid a t d).2 = some (u.balance - a) ∧
      ((deduct_user_balance db uid a t d).1).transactions =
        db.transactions ++
          [{ user_id := uid, amount := -a, transaction_type := t, description := d }]) := by
  constructor
  · intro db uid a aid ha
    constructor
    · unfold admin_add_balance_amount
      rw [if_pos ha]
    · unfold admin_deduct_balance_amount
      rw [if_pos ha]
  · intro db uid a t d u _ hu hba
    have hnlt : ¬u.balance < a := not_lt.mpr hba
    rw [add_user_balance_some hu a t d, deduct_user_balance_some hu hnlt t d]
    exact ⟨rfl, rfl, rfl, rfl⟩

/-- C8 witness: the amended theorem at concrete inputs — the admin step
rejects −3 with no state change, while the raw ledger functions applied
to −3 on the base store append a transaction each and return the mutated
balances 7 and 13. -/
theorem ledger_no_precondition_check_witness :
    (admin_add_balance_amount baseDb 1 (-3) 9 = (baseDb, false) ∧
      admin_deduct_balance_amount baseDb 1 (-3) 9 = (baseDb, false)) ∧
    ((add_user_balance baseDb 1 (-3) "t" none).2 = some (userA.balance + (-3)) ∧
      ((add_user_balance baseDb 1 (-3) "t" none).1).transactions =
        baseDb.transactions ++
          [{ user_id := 1, amount := -3, transaction_type := "t", description := none }] ∧
      (deduct_user_balance baseDb 1 (-3) "t" none).2 = some (userA.balance - (-3)) ∧
      ((deduct_user_balance baseDb 1 (-3) "t" none).1).transactions =
        baseDb.transactions ++
          [{ user_id := 1, amount := -(-3), transaction_type := "t", description := none }]) :=
  ⟨ledger_no_precondition_check.1 baseDb 1 (-3) 9 (by norm_num),
    (ledger_no_precondition_check.2 baseDb 1 (-3) "t" none userA (by norm_num)
      (by decide) (by norm_num [userA]))⟩

theorem get_range_congr {db db' : DB} (h : db'.ranges = db.ranges) (ruid : String) :
    get_range_by_unique_id db' ruid = get_range_by_unique_id db ruid := by
  unfold get_range_by_unique_id; rw [h]

/-- C7 counterexample: the claimed scenario does not fail.  On `db7`
(range `ra` priced 2, exactly 25 available numbers, user balance 5,
batch size 20) the allocation flow succeeds — the balance check compares
against the unit price (5 < 2 is false), not `batch_size` times the
price — returning the allocated batch and creating 20 holds instead of
`InsufficientBalance` with none. -/
theorem alloc_underfunded_batch_counterexample :
    get_price_for_range db7 "ra" = 2 ∧
    findUser db7 1 = some { id := 1, balance := 5, total_spent := 0, total_sms_received := 0 } ∧
    (availAll db7 "ra").length = 25 ∧
    SMS_DISPLAY_COUNT = 20 ∧
    SelOk db7 "ra" sel20A 0 ∧
    (view_sms_numbers db7 1 "ra" sel20A 0).2 = .allocated sel20A ∧
    (view_sms_numbers db7 1 "ra" sel20A 0).2 ≠ .insufficientBalance ∧
    ((view_sms_numbers db7 1 "ra" sel20A 0).1).holds.length = 20 := by
  refine ⟨by decide, by decide, by decide, by decide, ⟨by decide, by decide, ?_⟩,
    by decide, by decide, by decide⟩
  decide

/-- C7 amended: the balance check does precede the inventory check, but it
compares the balance against the range's unit price, not against
`batch_size` multiplied by the price.  Whenever the balance is below the
unit price the flow stops with `InsufficientBalance`, leaving only the
opening sweep's effect and creating no holds; in the claimed scenario
(batch 20, 25 available, price 2, balance 5) the check passes and the
allocation succeeds with 20 holds. -/
theorem alloc_balance_before_inventory :
    ((view_sms_numbers db7 1 "ra" sel20A 0).2 = .allocated sel20A ∧
      ((view_sms_numbers db7 1 "ra" sel20A 0).1).holds.length = 20) ∧
    (∀ (db : DB) (uid : Nat) (ruid : String) (sel : List PhoneRow) (now : Nat)
      (r : RangeRow) (u : UserRow),
      get_range_by_unique_id db ruid = some r →
      findUser db uid = some u →
      u.balance < get_price_for_range db ruid →
      view_sms_numbers db uid ruid sel now =
        ((cleanup_expired_holds db now).1, .insufficientBalance)) := by
  constructor
  · exact ⟨by decide, by decide⟩
  · intro db uid ruid sel now r u hr hu hlt
    have hframe := cleanup_frame db now
    have hr1 : get_range_by_unique_id (cleanup_expired_holds db now).1 ruid = some r := by
      rw [get_range_congr hframe.2.2.2.1]; exact hr
    have hu1 : findUser (cleanup_expired_holds db now).1 uid = some u := by
      rw [findUser_congr hframe.1]; exact hu
    have hp1 : get_price_for_range (cleanup_expired_holds db now).1 ruid =
        get_price_for_range db ruid := get_price_congr hframe.2.2.1 ruid
    simp only [view_sms_numbers, hr1, hu1, hp1, if_pos hlt]

/-- C7 witness: the amended theorem's general part at a concrete input —
on `dbPoor` (balance 1, price 2) allocation stops with
`InsufficientBalance` in the post-sweep state. -/
theorem alloc_balance_before_inventory_witness :
    view_sms_numbers dbPoor 1 "ra" [] 5 =
      ((cleanup_expired_holds dbPoor 5).1, .insufficientBalance) :=
  alloc_balance_before_inventory.2 dbPoor 1 "ra" [] 5 rangeA
    { userA with balance := 1 } (by decide) (by decide) (by decide)

/-- C3: debit-before-promote ordering.  If the user's hold on the number
is still temporary and the balance is below the range's price when the
search flow finds an SMS, the flow reports `insufficientFunds` and the
store keeps its transactions, its users (so neither balance nor
`total_spent` nor `total_sms_received` moves) and every hold's identity
including `is_permanent` — the only thing that may change is the
`first_retry_time` stamp of the first search. -/
theorem debit_before_promote (db : DB) (uid : Nat) (phone : String) (now : Nat)
    (held : Hold) (u : UserRow)
    (hfind : db.holds.find? (holdPred uid phone) = some held)
    (hperm : held.is_permanent = false)
    (hu : findUser db uid = some u)
    (hbal : u.balance < get_price_for_range db held.range_id) :
    (handle_phone_search db uid phone true now).2 = .insufficientFunds ∧
    ((handle_phone_search db uid phone true now).1).transactions = db.transactions ∧
    ((handle_phone_search db uid phone true now).1).users = db.users ∧
    (((handle_phone_search db uid phone true now).1).holds).map holdCore =
      db.holds.map holdCore := by
  have hframe := retryIfFirst_frame db uid phone held now
  have hu1 : findUser (retryIfFirst db uid phone held now) uid = some u := by
    rw [findUser_congr hframe.1]; exact hu
  have hp1 : get_price_for_range (retryIfFirst db uid phone held now) held.range_id =
      get_price_for_range db held.range_id := get_price_congr hframe.2.2.1 _
  have hd : deduct_user_balance (retryIfFirst db uid phone held now) uid
      (get_price_for_range (retryIfFirst db uid phone held now) held.range_id)
      "sms_charge" (some ("SMS received on " ++ phone)) =
      (retryIfFirst db uid phone held now, none) :=
    deduct_user_balance_insufficient hu1 (by rw [hp1]; exact hbal) _ _
  simp only [handle_phone_search, hfind, hperm, Bool.not_true, Bool.false_eq_true,
    if_false, hd]
  exact ⟨trivial, hframe.2.1, hframe.1, retryIfFirst_holds_core db uid phone held now⟩

/-- C3 witness: the theorem at a concrete input — on `dbPoor` (balance 1,
price 2, a temporary hold on A1) the search flow with an SMS found
reports insufficient funds and leaves ledger, users and hold identities
unchanged. -/
theorem debit_before_promote_witness :
    (handle_phone_search dbPoor 1 "A1" true 7).2 = .insufficientFunds ∧
    ((handle_phone_search dbPoor 1 "A1" true 7).1).transactions = dbPoor.transactions ∧
    ((handle_phone_search dbPoor 1 "A1" true 7).1).users = dbPoor.users ∧
    (((handle_phone_search dbPoor 1 "A1" true 7).1).holds).map holdCore =
      dbPoor.holds.map holdCore :=
  debit_before_promote dbPoor 1 "A1" 7 holdTemp { userA with balance := 1 }
    (by decide) (by decide) (by decide) (by decide)

/-- C2: exactly-once billing.  First, when the user's hold on the number
is already permanent, the search flow reports `alreadyBilled` and leaves
both the transaction ledger and the users table untouched — no second
debit, balance unchanged.  Second, the run that does bill (temporary
hold, sufficient balance) appends exactly one debit transaction of the
range's price; together the two parts give one debit per promoted
hold. -/
theorem exactly_once_billing :
    (∀ (db : DB) (uid : Nat) (phone : String) (now : Nat) (held : Hold),
      db.holds.find? (holdPred uid phone) = some held →
      held.is_permanent = true →
      (handle_phone_search db uid phone true now).2 = .alreadyBilled ∧
      ((handle_phone_search db uid phone true now).1).transactions = db.transactions ∧
      ((handle_phone_search db uid phone true now).1).users = db.users) ∧
    (∀ (db : DB) (uid : Nat) (phone : String) (now : Nat) (held : Hold) (u : UserRow),
      db.holds.find? (holdPred uid phone) = some held →
      held.is_permanent = false →
      findUser db uid = some u →
      ¬u.balance < get_price_for_range db held.range_id →
      (handle_phone_search db uid phone true now).2 =
        .billed (get_price_for_range db held.range_id) ∧
      ((handle_phone_search db uid phone true now).1).transactions =
        db.transactions ++
          [{ user_id := uid, amount := -(get_price_for_range db held.range_id),
             transaction_type := "sms_charge",
             description := some ("SMS received on " ++ phone) }]) := by
  constructor
  · intro db uid phone now held hfind hperm
    have hframe := retryIfFirst_frame db uid phone held now
    simp only [handle_phone_search, hfind, hperm, Bool.not_true, Bool.false_eq_true,
      if_false, if_true]
    exact ⟨trivial, hframe.2.1, hframe.1⟩
  · intro db uid phone now held u hfind hperm hu hbal
    have hframe := retryIfFirst_frame db uid phone held now
    have hu1 : findUser (retryIfFirst db uid phone held now) uid = some u := by
      rw [findUser_congr hframe.1]; exact hu
    have hp1 : get_price_for_range (retryIfFirst db uid phone held now) held.range_id =
        get_price_for_range db held.range_id := get_price_congr hframe.2.2.1 _
    have hbal1 : ¬u.balance <
        get_price_for_range (retryIfFirst db uid phone held now) held.range_id := by
      rw [hp1]; exact hbal
    have hd := deduct_user_balance_some hu1 hbal1
      "sms_charge" (some ("SMS received on " ++ phone))
    rw [hp1] at hd
    simp only [handle_phone_search, hfind, hperm, Bool.not_true, Bool.false_eq_true,
      if_false, hp1, hd]
    constructor
    · trivial
    · rw [(mark_frame _ uid phone).1]
      simp only [hframe.2.1]

/-- C2 witness: both parts at concrete inputs — re-running the search flow
on the already-permanent hold of `dbPerm` leaves ledger and users
unchanged, and the billing run on `baseDb` with the temporary hold added
appends exactly the one debit transaction. -/
theorem exactly_once_billing_witness :
    ((handle_phone_search dbPerm 1 "A1" true 7).2 = .alreadyBilled ∧
      ((handle_phone_search dbPerm 1 "A1" true 7).1).transactions = dbPerm.transactions ∧
      ((handle_phone_search dbPerm 1 "A1" true 7).1).users = dbPerm.users) ∧
    ((handle_phone_search { baseDb with holds := [holdTemp] } 1 "A1" true 7).2 =
      .billed (get_price_for_range { baseDb with holds := [holdTemp] } "ra") ∧
      ((handle_phone_search { baseDb with holds := [holdTemp] } 1 "A1" true 7).1).transactions =
        ({ baseDb with holds := [holdTemp] } : DB).transactions ++
          [{ user_id := 1,
             amount := -(get_price_for_range { baseDb with holds := [holdTemp] } "ra"),
             transaction_type := "sms_charge",
             description := some ("SMS received on " ++ "A1") }]) :=
  ⟨exactly_once_billing.1 dbPerm 1 "A1" 7 holdPerm (by decide) (by decide),
    exactly_once_billing.2 { baseDb with holds := [holdTemp] } 1 "A1" 7 holdTemp userA
      (by decide) (by decide) (by decide) (by decide)⟩

theorem txSum_append (txs : List TransactionRow) (t : TransactionRow) (uid : Nat) :
    txSum (txs ++ [t]) uid =
      txSum txs uid + (if t.user_id == uid then t.amount else 0) := by
  unfold txSum
  rw [List.filter_append, List.map_append, List.sum_append]
  by_cases h : t.user_id == uid <;> simp [List.filter_cons, h]

theorem LedgerOK_congr {db db' : DB} (hu : db'.users = db.users)
    (ht : db'.transactions = db.transactions) (h : LedgerOK db) : LedgerOK db' := by
  unfold LedgerOK at *
  rw [hu, ht]
  exact h

theorem balance_after_nonledger_update (users : List UserRow) (txs : List TransactionRow)
    (h : ∀ u ∈ users, u.balance = txSum txs u.id) (uid : Nat) (f : UserRow → UserRow)
    (hid : ∀ v, (f v).id = v.id) (hbal : ∀ v, (f v).balance = v.balance) :
    ∀ u ∈ updateUser uid f users, u.balance = txSum txs u.id := by
  intro u' hu'
  simp only [updateUser, List.mem_map] at hu'
  obtain ⟨u, hu, rfl⟩ := hu'
  by_cases hiu : u.id == uid
  · rw [if_pos hiu, hbal, hid]
    exact h u hu
  · rw [if_neg hiu]
    exact h u hu

theorem balance_after_paired_update (users : List UserRow) (txs : List TransactionRow)
    (h : ∀ u ∈ users, u.balance = txSum txs u.id) (uid : Nat) (t : TransactionRow)
    (f : UserRow → UserRow) (hid : ∀ v, (f v).id = v.id)
    (hbal : ∀ v, (f v).balance = v.balance + t.amount) (htu : t.user_id = uid) :
    ∀ u ∈ updateUser uid f users, u.balance = txSum (txs ++ [t]) u.id := by
  intro u' hu'
  simp only [updateUser, List.mem_map] at hu'
  obtain ⟨u, hu, rfl⟩ := hu'
  by_cases hiu : u.id == uid
  · have hid' : u.id = uid := by simpa using hiu
    rw [if_pos hiu, hbal, hid, h u hu, txSum_append,
      if_pos (show (t.user_id == u.id) = true by simp [htu, hid'])]
  · have hid' : ¬u.id = uid := by simpa using hiu
    rw [if_neg hiu, txSum_append,
      if_neg (show ¬(t.user_id == u.id) = true by simp [htu]; exact fun e => hid' e.symm),
      add_zero]
    exact h u hu

theorem add_preserves_ledger (db : DB) (uid : Nat) (a : Rat) (t : String)
    (d : Option String) (h : LedgerOK db) : LedgerOK (add_user_balance db uid a t d).1 := by
  cases hf : findUser db uid with
  | none => simp only [add_user_balance, hf]; exact h
  | some u =>
    simp only [add_user_balance, hf]
    intro u' hu'
    exact balance_after_paired_update db.users db.transactions h uid
      { user_id := uid, amount := a, transaction_type := t, description := d }
      (fun v => { v with balance := v.balance + a })
      (fun v => rfl) (fun v => rfl) rfl u' hu'

theorem deduct_preserves_ledger (db : DB) (uid : Nat) (a : Rat) (t : String)
    (d : Option String) (h : LedgerOK db) :
    LedgerOK (deduct_user_balance db uid a t d).1 := by
  cases hf : findUser db uid with
  | none => simp only [deduct_user_balance, hf]; exact h
  | some u =>
    simp only [deduct_user_balance, hf]
    by_cases hlt : u.balance < a
    · rw [if_pos hlt]; exact h
    · rw [if_neg hlt]
      intro u' hu'
      exact balance_after_paired_update db.users db.transactions h uid
        { user_id := uid, amount := -a, transaction_type := t, description := d }
        (fun v => { v with balance := v.balance - a, total_spent := v.total_spent + a })
        (fun v => rfl) (fun v => sub_eq_add_neg _ _) rfl u' hu'

theorem mark_preserves_ledger (db : DB) (uid : Nat) (phone : String) (h : LedgerOK db) :
    LedgerOK (mark_number_permanent db uid phone).1 := by
  cases hf : db.holds.find? (markPred uid phone) with
  | none => simp only [mark_number_permanent, hf]; exact h
  | some h0 =>
    simp only [mark_number_permanent, hf]
    intro u' hu'
    exact balance_after_nonledger_update db.users db.transactions h uid
      (fun v => { v with total_sms_received := v.total_sms_received + 1 })
      (fun v => rfl) (fun v => rfl) u' hu'

theorem retry_preserves_ledger (db : DB) (uid : Nat) (phone : String) (held : Hold)
    (now : Nat) (h : LedgerOK db) : LedgerOK (retryIfFirst db uid phone held now) := by
  have hframe := retryIfFirst_frame db uid phone held now
  exact LedgerOK_congr hframe.1 hframe.2.1 h

theorem search_preserves_ledger (db : DB) (uid : Nat) (phone : String) (smsFound : Bool)
    (now : Nat) (h : LedgerOK db) :
    LedgerOK (handle_phone_search db uid phone smsFound now).1 := by
  cases hfind : db.holds.find? (holdPred uid phone) with
  | none => simp only [handle_phone_search, hfind]; exact h
  | some held =>
    simp only [handle_phone_search, hfind]
    have h1 := retry_preserves_ledger db uid phone held now h
    cases hs : smsFound with
    | false => simp only [Bool.not_false, if_true]; exact h1
    | true =>
      simp only [Bool.not_true, Bool.false_eq_true, if_false]
      cases hp : held.is_permanent with
      | true => simp only [if_true]; exact h1
      | false =>
        simp only [Bool.false_eq_true, if_false]
        have h2 := deduct_preserves_ledger (retryIfFirst db uid phone held now) uid
          (get_price_for_range (retryIfFirst db uid phone held now) held.range_id)
          "sms_charge" (some ("SMS received on " ++ phone)) h1
        cases hd : deduct_user_balance (retryIfFirst db uid phone held now) uid
            (get_price_for_range (retryIfFirst db uid phone held now) held.range_id)
            "sms_charge" (some ("SMS received on " ++ phone)) with
        | mk db2 r =>
          rw [hd] at h2
          cases r with
          | none => exact h2
          | some v => exact mark_preserves_ledger db2 uid phone h2

theorem alloc_preserves_ledger (db : DB) (uid : Nat) (ruid : String)
    (sel : List PhoneRow) (now : Nat) (h : LedgerOK db) :
    LedgerOK (view_sms_numbers db uid ruid sel now).1 := by
  have hc := cleanup_frame db now
  have h1 : LedgerOK (cleanup_expired_holds db now).1 := LedgerOK_congr hc.1 hc.2.1 h
  simp only [view_sms_numbers]
  cases hr : get_range_by_unique_id (cleanup_expired_holds db now).1 ruid with
  | none => simp only [hr]; exact h1
  | some r =>
    simp only [hr]
    cases hu : findUser (cleanup_expired_holds db now).1 uid with
    | none => exact h1
    | some u =>
      dsimp only
      by_cases hb : u.balance < get_price_for_range (cleanup_expired_holds db now).1 ruid
      · rw [if_pos hb]; exact h1
      · rw [if_neg hb]
        by_cases he : (get_available_numbers_for_range (cleanup_expired_holds db now).1
            ruid SMS_FETCH_COUNT).isEmpty
        · rw [if_pos he]; exact h1
        · rw [if_neg he]
          by_cases hl : (get_available_numbers_for_range (cleanup_expired_holds db now).1
              ruid SMS_FETCH_COUNT).length < SMS_DISPLAY_COUNT
          · rw [if_pos hl]; exact h1
          · rw [if_neg hl]
            have hcr := create_holds_frame (cleanup_expired_holds db now).1 uid
              (sel.map (·.id)) ruid now
            exact LedgerOK_congr hcr.1 hcr.2.1 h1

theorem step_preserves_ledger {db db' : DB} (h : LedgerOK db) (s : Step db db') :
    LedgerOK db' := by
  cases s with
  | credit uid a t d => exact add_preserves_ledger db uid a t d h
  | debit uid a t d => exact deduct_preserves_ledger db uid a t d h
  | alloc uid ruid sel now hsel => exact alloc_preserves_ledger db uid ruid sel now h
  | search uid phone s now => exact search_preserves_ledger db uid phone s now h
  | sweep now => exact LedgerOK_congr (cleanup_frame db now).1 (cleanup_frame db now).2.1 h

/-- C1: ledger consistency.  If every user's cached balance equals the sum
of that user's transaction amounts, then after any sequence of the core
operations — credit, debit, allocation, the SMS-search flow that promotes
and bills, and the expiry sweep — the equality still holds for every
user: no step changes a balance without appending the matching
transaction. -/
theorem ledger_consistency {db db' : DB} (h0 : LedgerOK db) (hr : Reachable db db') :
    LedgerOK db' := by
  induction hr with
  | refl => exact h0
  | tail _ s ih => exact step_preserves_ledger ih s

/-- C1 witness: the theorem across a concrete two-step run — a credit of 5
followed by the expiry sweep on the consistent store `ledgerDb` yields a
consistent store. -/
theorem ledger_consistency_witness :
    LedgerOK (cleanup_expired_holds (add_user_balance ledgerDb 1 5 "recharge" none).1 50).1 :=
  ledger_consistency
    (by intro u hu; simp only [ledgerDb, baseDb] at hu; rw [List.mem_singleton] at hu;
        subst hu; rfl)
    (Relation.ReflTransGen.tail
      (Relation.ReflTransGen.single (Step.credit ledgerDb 1 5 "recharge" none))
      (Step.sweep (add_user_balance ledgerDb 1 5 "recharge" none).1 50))


theorem add_holds_pn (db : DB) (uid : Nat) (a : Rat) (t : String) (d : Option String) :
    ((add_user_balance db uid a t d).1).holds = db.holds ∧
    ((add_user_balance db uid a t d).1).phone_numbers = db.phone_numbers := by
  cases hf : findUser db uid <;> simp only [add_user_balance, hf] <;>
    exact ⟨by trivial, by trivial⟩

theorem deduct_holds_pn (db : DB) (uid : Nat) (a : Rat) (t : String) (d : Option String) :
    ((deduct_user_balance db uid a t d).1).holds = db.holds ∧
    ((deduct_user_balance db uid a t d).1).phone_numbers = db.phone_numbers := by
  cases hf : findUser db uid with
  | none => simp only [deduct_user_balance, hf]; exact ⟨by trivial, by trivial⟩
  | some u =>
    simp only [deduct_user_balance, hf]
    by_cases hlt : u.balance < a
    · rw [if_pos hlt]; exact ⟨by trivial, by trivial⟩
    · rw [if_neg hlt]; exact ⟨by trivial, by trivial⟩

theorem update_first_retry_holds_pid (db : DB) (uid : Nat) (phone : String) (now : Nat) :
    (((update_first_retry_time db uid phone now).1).holds).filterMap (·.phone_number_id) =
      db.holds.filterMap (·.phone_number_id) := by
  cases hf : db.holds.find? (holdPred uid phone) with
  | none => simp only [update_first_retry_time, hf]
  | some h =>
    simp only [update_first_retry_time, hf]
    by_cases hr : h.first_retry_time.isNone
    · rw [if_pos hr]
      exact updateFirst_filterMap_eq (holdPred uid phone)
        (fun h => { h with first_retry_time := some now })
        (·.phone_number_id) (fun x _ => rfl) db.holds
    · rw [if_neg hr]

theorem retryIfFirst_holds_pid (db : DB) (uid : Nat) (phone : String) (held : Hold)
    (now : Nat) :
    ((retryIfFirst db uid phone held now).holds).filterMap (·.phone_number_id) =
      db.holds.filterMap (·.phone_number_id) := by
  unfold retryIfFirst
  split
  · exact update_first_retry_holds_pid db uid phone now
  · rfl

theorem mark_holds_pid (db : DB) (uid : Nat) (phone : String) :
    (((mark_number_permanent db uid phone).1).holds).filterMap (·.phone_number_id) =
      db.holds.filterMap (·.phone_number_id) := by
  cases hf : db.holds.find? (markPred uid phone) with
  | none => simp only [mark_number_permanent, hf]
  | some h =>
    simp only [mark_number_permanent, hf]
    exact updateFirst_filterMap_eq (markPred uid phone)
      (fun h => { h with is_permanent := true })
      (·.phone_number_id) (fun x _ => rfl) db.holds

theorem mark_pn (db : DB) (uid : Nat) (phone : String) :
    ((mark_number_permanent db uid phone).1).phone_numbers = db.phone_numbers := by
  cases hf : db.holds.find? (markPred uid phone) with
  | none => simp only [mark_number_permanent, hf]
  | some h => simp only [mark_number_permanent, hf]

theorem HoldInv_of_eq {db db' : DB}
    (hh : db'.holds.filterMap (·.phone_number_id) =
      db.holds.filterMap (·.phone_number_id))
    (hp : db'.phone_numbers = db.phone_numbers) (h : HoldInv db) : HoldInv db' := by
  unfold HoldInv at *
  rw [hh, hp]
  exact h

theorem sweep_preserves_holdInv (db : DB) (now : Nat) (h : HoldInv db) :
    HoldInv (cleanup_expired_holds db now).1 :=
  ⟨List.Nodup.sublist (List.Sublist.filterMap _ (List.filter_sublist _)) h.1, h.2⟩

theorem search_preserves_holdInv (db : DB) (uid : Nat) (phone : String) (smsFound : Bool)
    (now : Nat) (h : HoldInv db) : HoldInv (handle_phone_search db uid phone smsFound now).1 := by
  cases hfind : db.holds.find? (holdPred uid phone) with
  | none => simp only [handle_phone_search, hfind]; exact h
  | some held =>
    simp only [handle_phone_search, hfind]
    have hrf := retryIfFirst_frame db uid phone held now
    have h1 : HoldInv (retryIfFirst db uid phone held now) :=
      HoldInv_of_eq (retryIfFirst_holds_pid db uid phone held now) hrf.2.2.2.2 h
    cases hs : smsFound with
    | false => simp only [Bool.not_false, if_true]; exact h1
    | true =>
      simp only [Bool.not_true, Bool.false_eq_true, if_false]
      cases hp : held.is_permanent with
      | true => simp only [if_true]; exact h1
      | false =>
        simp only [Bool.false_eq_true, if_false]
        cases hd : deduct_user_balance (retryIfFirst db uid phone held now) uid
            (get_price_for_range (retryIfFirst db uid phone held now) held.range_id)
            "sms_charge" (some ("SMS received on " ++ phone)) with
        | mk db2 r =>
          have hdd := deduct_holds_pn (retryIfFirst db uid phone held now) uid
            (get_price_for_range (retryIfFirst db uid phone held now) held.range_id)
            "sms_charge" (some ("SMS received on " ++ phone))
          rw [hd] at hdd
          have h2 : HoldInv db2 := HoldInv_of_eq (by rw [hdd.1]) hdd.2 h1
          cases r with
          | none => exact h2
          | some v =>
            exact HoldInv_of_eq (mark_holds_pid db2 uid phone) (mark_pn db2 uid phone) h2

theorem find?_id_of_mem {l : List PhoneRow} {p : PhoneRow} (hp : p ∈ l) :
    ∃ y, l.find? (·.id == p.id) = some y ∧ y.id = p.id := by
  have hsome : (l.find? (·.id == p.id)).isSome := by
    rw [List.find?_isSome]
    exact ⟨p, hp, by simp⟩
  obtain ⟨y, hy⟩ := Option.isSome_iff_exists.mp hsome
  refine ⟨y, hy, ?_⟩
  have := List.find?_some hy
  simpa using this

theorem find?_id_of_nodup {l : List PhoneRow} (hnd : (l.map (·.id)).Nodup) {p : PhoneRow}
    (hp : p ∈ l) : l.find? (·.id == p.id) = some p := by
  obtain ⟨y, hy, hyid⟩ := find?_id_of_mem hp
  have hyl : y ∈ l := List.mem_of_find?_eq_some hy
  have : y = p := List.inj_on_of_nodup_map hnd hyl hp hyid
  rw [hy, this]

theorem newHolds_pid (db : DB) (uid : Nat) (ruid : String) (now : Nat) :
    ∀ sel : List PhoneRow, (∀ p ∈ sel, p ∈ db.phone_numbers) →
      ((create_number_holds db uid (sel.map (·.id)) ruid now).2).filterMap
        (·.phone_number_id) = sel.map (·.id) := by
  intro sel
  induction sel with
  | nil => intro _; rfl
  | cons p ps ih =>
    intro hmem
    obtain ⟨y, hy, hyid⟩ := find?_id_of_mem (hmem p (List.mem_cons_self p ps))
    have ih' := ih fun q hq => hmem q (List.mem_cons_of_mem p hq)
    simp only [create_number_holds, List.map_cons, List.filterMap_cons] at ih' ⊢
    rw [hy]
    simp only [Option.map_some']
    rw [List.filterMap_cons]
    simp only [ih']
    simp [hyid]

theorem mem_availAll {db : DB} {ruid : String} {p : PhoneRow} (hp : p ∈ availAll db ruid) :
    p ∈ db.phone_numbers ∧ p.id ∉ heldPhoneIds db ∧
      ∃ r, get_range_by_unique_id db ruid = some r ∧ p.range_id = r.id := by
  unfold availAll at hp
  cases hr : get_range_by_unique_id db ruid with
  | none => rw [hr] at hp; simp at hp
  | some r =>
    rw [hr] at hp
    rw [List.mem_filter] at hp
    have hcond := hp.2
    simp only [Bool.and_eq_true, beq_iff_eq, Bool.not_eq_true'] at hcond
    refine ⟨hp.1, ?_, r, rfl, hcond.1⟩
    intro hmem
    have hc2 : List.elem p.id (heldPhoneIds db) = false := hcond.2
    rw [← List.elem_iff] at hmem
    rw [hmem] at hc2
    exact absurd hc2 (by simp)

theorem mem_avail_sub {db : DB} {ruid : String} {lim : Nat} {p : PhoneRow}
    (hp : p ∈ get_available_numbers_for_range db ruid lim) : p ∈ availAll db ruid :=
  List.mem_of_mem_take hp

theorem alloc_preserves_holdInv (db : DB) (uid : Nat) (ruid : String)
    (sel : List PhoneRow) (now : Nat) (hsel : SelOk db ruid sel now) (h : HoldInv db) :
    HoldInv (view_sms_numbers db uid ruid sel now).1 := by
  have h1 := sweep_preserves_holdInv db now h
  have hmemsel : ∀ p ∈ sel, p ∈ ((cleanup_expired_holds db now).1).phone_numbers :=
    fun p hp => (mem_availAll (mem_avail_sub (hsel.2.2 p hp))).1
  have hunheld : ∀ p ∈ sel, p.id ∉ heldPhoneIds (cleanup_expired_holds db now).1 :=
    fun p hp => (mem_availAll (mem_avail_sub (hsel.2.2 p hp))).2.1
  simp only [view_sms_numbers]
  cases hr : get_range_by_unique_id (cleanup_expired_holds db now).1 ruid with
  | none => simp only [hr]; exact h1
  | some r =>
    simp only [hr]
    cases hu : findUser (cleanup_expired_holds db now).1 uid with
    | none => exact h1
    | some u =>
      dsimp only
      by_cases hb : u.balance < get_price_for_range (cleanup_expired_holds db now).1 ruid
      · rw [if_pos hb]; exact h1
      · rw [if_neg hb]
        by_cases he : (get_available_numbers_for_range (cleanup_expired_holds db now).1
            ruid SMS_FETCH_COUNT).isEmpty
        · rw [if_pos he]; exact h1
        · rw [if_neg he]
          by_cases hl : (get_available_numbers_for_range (cleanup_expired_holds db now).1
              ruid SMS_FETCH_COUNT).length < SMS_DISPLAY_COUNT
          · rw [if_pos hl]; exact h1
          · rw [if_neg hl]
            refine ⟨?_, h1.2⟩
            show ((((cleanup_expired_holds db now).1).holds.filter _ ++
              (create_number_holds (cleanup_expired_holds db now).1 uid
                (sel.map (·.id)) ruid now).2).filterMap (·.phone_number_id)).Nodup
            rw [List.filterMap_append,
              newHolds_pid (cleanup_expired_holds db now).1 uid ruid now sel hmemsel]
            apply List.Nodup.append
            · exact List.Nodup.sublist (List.Sublist.filterMap _ (List.filter_sublist _)) h1.1
            · refine List.Nodup.map_on ?_ hsel.1
              intro x hx y hy hxy
              exact List.inj_on_of_nodup_map h1.2 (hmemsel x hx) (hmemsel y hy) hxy
            · intro a ha hb2
              obtain ⟨q, hq, hqa⟩ := List.mem_map.mp hb2
              obtain ⟨hh, hhk, hha⟩ := List.mem_filterMap.mp ha
              have hh1 : hh ∈ ((cleanup_expired_holds db now).1).holds :=
                List.mem_of_mem_filter hhk
              have hheld : a ∈ heldPhoneIds (cleanup_expired_holds db now).1 :=
                List.mem_filterMap.mpr ⟨hh, hh1, hha⟩
              rw [← hqa] at hheld
              exact hunheld q hq hheld

theorem step_preserves_holdInv {db db' : DB} (h : HoldInv db) (s : Step db db') :
    HoldInv db' := by
  cases s with
  | credit uid a t d =>
    have hx := add_holds_pn db uid a t d
    exact HoldInv_of_eq (by rw [hx.1]) hx.2 h
  | debit uid a t d =>
    have hx := deduct_holds_pn db uid a t d
    exact HoldInv_of_eq (by rw [hx.1]) hx.2 h
  | alloc uid ruid sel now hsel => exact alloc_preserves_holdInv db uid ruid sel now hsel h
  | search uid phone s now => exact search_preserves_holdInv db uid phone s now h
  | sweep now => exact sweep_preserves_holdInv db now h


theorem alloc_success_state (db : DB) (uid : Nat) (ruid : String) (sel : List PhoneRow)
    (now : Nat) (s : List PhoneRow)
    (h : (view_sms_numbers db uid ruid sel now).2 = .allocated s) :
    (view_sms_numbers db uid ruid sel now).1 =
      (create_number_holds (cleanup_expired_holds db now).1 uid
        (sel.map (·.id)) ruid now).1 ∧ s = sel := by
  simp only [view_sms_numbers] at h ⊢
  cases hr : get_range_by_unique_id (cleanup_expired_holds db now).1 ruid with
  | none => rw [hr] at h; exact absurd h (by simp)
  | some r =>
    simp only [hr] at h ⊢
    cases hu : findUser (cleanup_expired_holds db now).1 uid with
    | none =>
      simp only [hu] at h
      exact absurd h (by simp)
    | some u =>
      simp only [hu] at h ⊢
      by_cases hb : u.balance < get_price_for_range (cleanup_expired_holds db now).1 ruid
      · rw [if_pos hb] at h; exact absurd h (by simp)
      · rw [if_neg hb] at h ⊢
        by_cases he : (get_available_numbers_for_range (cleanup_expired_holds db now).1
            ruid SMS_FETCH_COUNT).isEmpty
        · rw [if_pos he] at h; exact absurd h (by simp)
        · rw [if_neg he] at h ⊢
          by_cases hl : (get_available_numbers_for_range (cleanup_expired_holds db now).1
              ruid SMS_FETCH_COUNT).length < SMS_DISPLAY_COUNT
          · rw [if_pos hl] at h; exact absurd h (by simp)
          · rw [if_neg hl] at h ⊢
            refine ⟨rfl, ?_⟩
            have := h.symm
            simpa using this

theorem newHolds_retry_none (db : DB) (uid : Nat) (ids : List Nat) (ruid : String)
    (now : Nat) :
    ∀ h ∈ (create_number_holds db uid ids ruid now).2, h.first_retry_time = none := by
  intro h hh
  simp only [create_number_holds, List.mem_filterMap] at hh
  obtain ⟨i, _, hi⟩ := hh
  cases hf : db.phone_numbers.find? (·.id == i) with
  | none => rw [hf] at hi; exact absurd hi (by simp)
  | some y =>
    rw [hf] at hi
    simp only [Option.map_some', Option.some.injEq] at hi
    rw [← hi]

theorem create_holds_eq (db : DB) (uid : Nat) (ids : List Nat) (ruid : String) (now : Nat) :
    ((create_number_holds db uid ids ruid now).1).holds =
      (db.holds.filter fun h => !(h.user_id == uid && !h.is_permanent)) ++
        (create_number_holds db uid ids ruid now).2 := rfl

theorem mem_heldPhoneIds_cleanup {db : DB} {now : Nat} {h : Hold}
    (hmem : h ∈ db.holds) (hret : h.first_retry_time = none) {a : Nat}
    (ha : h.phone_number_id = some a) :
    a ∈ heldPhoneIds (cleanup_expired_holds db now).1 := by
  refine List.mem_filterMap.mpr ⟨h, ?_, ha⟩
  rw [cleanup_holds, List.mem_filter]
  exact ⟨hmem, by simp [expiredHold, hret]⟩

theorem cleanup_noop {db : DB} {now : Nat}
    (h : ∀ x ∈ db.holds, expiredHold now x = false) :
    (cleanup_expired_holds db now).1 = db := by
  unfold cleanup_expired_holds
  have hfe : (db.holds.filter fun x => !expiredHold now x) = db.holds :=
    List.filter_eq_self.mpr fun a ha => by rw [h a ha]; rfl
  simp only [hfe]


theorem alloc_no_overlap (db : DB) (uid1 uid2 : Nat) (ruid1 ruid2 : String)
    (sel1 sel2 : List PhoneRow) (now1 now2 : Nat) (s1 : List PhoneRow)
    (hsel1 : SelOk db ruid1 sel1 now1)
    (hsucc1 : (view_sms_numbers db uid1 ruid1 sel1 now1).2 = .allocated s1)
    (hsel2 : SelOk (view_sms_numbers db uid1 ruid1 sel1 now1).1 ruid2 sel2 now2) :
    ∀ p ∈ sel1, ∀ q ∈ sel2, p.id ≠ q.id := by
  intro p hp q hq
  have hstate := (alloc_success_state db uid1 ruid1 sel1 now1 s1 hsucc1).1
  have hmem1 : ∀ x ∈ sel1, x ∈ ((cleanup_expired_holds db now1).1).phone_numbers :=
    fun x hx => (mem_availAll (mem_avail_sub (hsel1.2.2 x hx))).1
  have hpid := newHolds_pid (cleanup_expired_holds db now1).1 uid1 ruid1 now1 sel1 hmem1
  have hpin : p.id ∈ ((create_number_holds (cleanup_expired_holds db now1).1 uid1
      (sel1.map (·.id)) ruid1 now1).2).filterMap (·.phone_number_id) := by
    rw [hpid]
    exact List.mem_map.mpr ⟨p, hp, rfl⟩
  obtain ⟨hh, hhmem, hhpid⟩ := List.mem_filterMap.mp hpin
  have hhret := newHolds_retry_none (cleanup_expired_holds db now1).1 uid1
    (sel1.map (·.id)) ruid1 now1 hh hhmem
  have hhin : hh ∈ ((view_sms_numbers db uid1 ruid1 sel1 now1).1).holds := by
    rw [hstate, create_holds_eq]
    exact List.mem_append_right _ hhmem
  have hheld : p.id ∈ heldPhoneIds
      (cleanup_expired_holds (view_sms_numbers db uid1 ruid1 sel1 now1).1 now2).1 :=
    mem_heldPhoneIds_cleanup hhin hhret hhpid
  have hq2 := (mem_availAll (mem_avail_sub (hsel2.2.2 q hq))).2.1
  intro heq
  rw [heq] at hheld
  exact hq2 hheld

theorem alloc_exhaustion (db : DB) (uid1 uid2 : Nat) (ruid : String)
    (sel1 sel2 : List PhoneRow) (now1 now2 : Nat) (s1 : List PhoneRow)
    (r2 : RangeRow) (u2 : UserRow)
    (hnd : (db.phone_numbers.map (·.id)).Nodup)
    (hsel1 : SelOk db ruid sel1 now1)
    (hsucc1 : (view_sms_numbers db uid1 ruid sel1 now1).2 = .allocated s1)
    (hexact : (availAll (cleanup_expired_holds db now1).1 ruid).length = SMS_DISPLAY_COUNT)
    (huser1 : ∀ h ∈ db.holds, h.user_id = uid1 → h.is_permanent = true)
    (hnoexp : ∀ h ∈ ((view_sms_numbers db uid1 ruid sel1 now1).1).holds,
      expiredHold now2 h = false)
    (hr2 : get_range_by_unique_id (view_sms_numbers db uid1 ruid sel1 now1).1 ruid = some r2)
    (hu2 : findUser (view_sms_numbers db uid1 ruid sel1 now1).1 uid2 = some u2)
    (hb2 : ¬u2.balance < get_price_for_range (view_sms_numbers db uid1 ruid sel1 now1).1 ruid) :
    (view_sms_numbers (view_sms_numbers db uid1 ruid sel1 now1).1 uid2 ruid sel2 now2).2 =
      .noAvailable := by
  set d1 := (view_sms_numbers db uid1 ruid sel1 now1).1 with hd1
  have hstate : d1 = (create_number_holds (cleanup_expired_holds db now1).1 uid1
      (sel1.map (·.id)) ruid now1).1 := by
    rw [hd1]
    exact (alloc_success_state db uid1 ruid sel1 now1 s1 hsucc1).1
  have hclean2 : (cleanup_expired_holds d1 now2).1 = d1 := cleanup_noop hnoexp
  have hranges : d1.ranges = ((cleanup_expired_holds db now1).1).ranges := by
    rw [hstate]
    exact (create_holds_frame _ _ _ _ _).2.2.2.1
  have hr0 : get_range_by_unique_id (cleanup_expired_holds db now1).1 ruid = some r2 := by
    rw [← get_range_congr hranges ruid]
    exact hr2
  have hpn1 : d1.phone_numbers = ((cleanup_expired_holds db now1).1).phone_numbers := by
    rw [hstate]
    exact (create_holds_frame _ _ _ _ _).2.2.2.2
  have hpn0 : ((cleanup_expired_holds db now1).1).phone_numbers = db.phone_numbers :=
    (cleanup_frame db now1).2.2.2.2
  have hmem1 : ∀ x ∈ sel1, x ∈ ((cleanup_expired_holds db now1).1).phone_numbers :=
    fun x hx => (mem_availAll (mem_avail_sub (hsel1.2.2 x hx))).1
  have hpid := newHolds_pid (cleanup_expired_holds db now1).1 uid1 ruid now1 sel1 hmem1
  have havnd : (availAll (cleanup_expired_holds db now1).1 ruid).Nodup := by
    have hpn_nd : (((cleanup_expired_holds db now1).1).phone_numbers.map (·.id)).Nodup := by
      rw [hpn0]
      exact hnd
    have hrows : ((cleanup_expired_holds db now1).1).phone_numbers.Nodup :=
      List.Nodup.of_map _ hpn_nd
    unfold availAll
    rw [hr0]
    exact List.Nodup.filter _ hrows
  have hall : ∀ x ∈ availAll (cleanup_expired_holds db now1).1 ruid, x ∈ sel1 := by
    have hsubav : ∀ x ∈ sel1, x ∈ availAll (cleanup_expired_holds db now1).1 ruid :=
      fun x hx => mem_avail_sub (hsel1.2.2 x hx)
    have hfs : sel1.toFinset ⊆ (availAll (cleanup_expired_holds db now1).1 ruid).toFinset := by
      intro a ha
      exact List.mem_toFinset.mpr (hsubav a (List.mem_toFinset.mp ha))
    have hc1 : sel1.toFinset.card = SMS_DISPLAY_COUNT := by
      rw [List.toFinset_card_of_nodup hsel1.1, hsel1.2.1]
    have hc2 : (availAll (cleanup_expired_holds db now1).1 ruid).toFinset.card =
        SMS_DISPLAY_COUNT := by
      rw [List.toFinset_card_of_nodup havnd, hexact]
    have heq := Finset.eq_of_subset_of_card_le hfs (by rw [hc1, hc2])
    intro x hx
    exact List.mem_toFinset.mp (heq ▸ List.mem_toFinset.mpr hx)
  have hnil : availAll d1 ruid = [] := by
    rw [List.eq_nil_iff_forall_not_mem]
    intro p hpmem
    obtain ⟨hp_pn, hp_unheld, r3, hr3, hprange⟩ := mem_availAll hpmem
    rw [hr2] at hr3
    have hr32 : r3 = r2 := by injection hr3.symm
    subst hr32
    have hp_pn0 : p ∈ ((cleanup_expired_holds db now1).1).phone_numbers := by
      rw [← hpn1]
      exact hp_pn
    by_cases hph : p.id ∈ heldPhoneIds (cleanup_expired_holds db now1).1
    · obtain ⟨h0, hh0mem, hh0pid⟩ := List.mem_filterMap.mp hph
      have hh0db : h0 ∈ db.holds := by
        rw [cleanup_holds] at hh0mem
        exact List.mem_of_mem_filter hh0mem
      have hkeep : (!(h0.user_id == uid1 && !h0.is_permanent)) = true := by
        by_cases hus : h0.user_id = uid1
        · have := huser1 h0 hh0db hus
          simp [this]
        · simp [hus]
      have hh0kept : h0 ∈ d1.holds := by
        rw [hstate, create_holds_eq]
        exact List.mem_append_left _ (List.mem_filter.mpr ⟨hh0mem, hkeep⟩)
      exact hp_unheld (List.mem_filterMap.mpr ⟨h0, hh0kept, hh0pid⟩)
    · have hpav : p ∈ availAll (cleanup_expired_holds db now1).1 ruid := by
        unfold availAll
        rw [hr0]
        refine List.mem_filter.mpr ⟨hp_pn0, ?_⟩
        have hcont : ((heldPhoneIds (cleanup_expired_holds db now1).1).contains p.id) = false := by
          rw [← Bool.not_eq_true]
          intro hc
          exact hph (List.elem_iff.mp hc)
        simp only [Bool.and_eq_true, beq_iff_eq, Bool.not_eq_true']
        exact ⟨hprange, hcont⟩
      have hpin1 : p ∈ sel1 := hall p hpav
      have hpin : p.id ∈ ((create_number_holds (cleanup_expired_holds db now1).1 uid1
          (sel1.map (·.id)) ruid now1).2).filterMap (·.phone_number_id) := by
        rw [hpid]
        exact List.mem_map.mpr ⟨p, hpin1, rfl⟩
      obtain ⟨hh, hhmem, hhpid⟩ := List.mem_filterMap.mp hpin
      have hhin : hh ∈ d1.holds := by
        rw [hstate, create_holds_eq]
        exact List.mem_append_right _ hhmem
      exact hp_unheld (List.mem_filterMap.mpr ⟨hh, hhin, hhpid⟩)
  have havail_nil : get_available_numbers_for_range d1 ruid SMS_FETCH_COUNT = [] := by
    unfold get_available_numbers_for_range
    rw [hnil]
    rfl
  simp only [view_sms_numbers]
  rw [hclean2]
  simp only [hr2, hu2, havail_nil]
  rw [if_neg hb2]
  rfl


/-- C5: mutual exclusion on inventory.  First, the invariant that no two
holds reference the same catalogued phone number (with a duplicate-free
catalogue) holds in every state reachable under the core operations.
Second, a batch handed out by a successful allocation is disjoint, by
catalogue id, from any batch sampled for a later allocation, so two
allocations can never both succeed with overlapping numbers.  Third, when
a range's pool holds exactly `batch_size` numbers and one allocation
takes them all, a subsequent allocation for that range — any user with
sufficient balance, no hold expiring in between — observes no available
numbers (the "no available numbers" outcome). -/
theorem hold_mutual_exclusion :
    (∀ db db' : DB, HoldInv db → Reachable db db' → HoldInv db') ∧
    (∀ (db : DB) (uid1 uid2 : Nat) (ruid1 ruid2 : String)
      (sel1 sel2 : List PhoneRow) (now1 now2 : Nat) (s1 : List PhoneRow),
      SelOk db ruid1 sel1 now1 →
      (view_sms_numbers db uid1 ruid1 sel1 now1).2 = .allocated s1 →
      SelOk (view_sms_numbers db uid1 ruid1 sel1 now1).1 ruid2 sel2 now2 →
      ∀ p ∈ sel1, ∀ q ∈ sel2, p.id ≠ q.id) ∧
    (∀ (db : DB) (uid1 uid2 : Nat) (ruid : String) (sel1 sel2 : List PhoneRow)
      (now1 now2 : Nat) (s1 : List PhoneRow) (r2 : RangeRow) (u2 : UserRow),
      (db.phone_numbers.map (·.id)).Nodup →
      SelOk db ruid sel1 now1 →
      (view_sms_numbers db uid1 ruid sel1 now1).2 = .allocated s1 →
      (availAll (cleanup_expired_holds db now1).1 ruid).length = SMS_DISPLAY_COUNT →
      (∀ h ∈ db.holds, h.user_id = uid1 → h.is_permanent = true) →
      (∀ h ∈ ((view_sms_numbers db uid1 ruid sel1 now1).1).holds,
        expiredHold now2 h = false) →
      get_range_by_unique_id (view_sms_numbers db uid1 ruid sel1 now1).1 ruid = some r2 →
      findUser (view_sms_numbers db uid1 ruid sel1 now1).1 uid2 = some u2 →
      ¬u2.balance < get_price_for_range (view_sms_numbers db uid1 ruid sel1 now1).1 ruid →
      (view_sms_numbers (view_sms_numbers db uid1 ruid sel1 now1).1 uid2 ruid sel2 now2).2 =
        .noAvailable) := by
  refine ⟨?_, ?_, ?_⟩
  · intro db db' h hr
    induction hr with
    | refl => exact h
    | tail _ s ih => exact step_preserves_holdInv ih s
  · intro db uid1 uid2 ruid1 ruid2 sel1 sel2 now1 now2 s1 h1 h2 h3
    exact alloc_no_overlap db uid1 uid2 ruid1 ruid2 sel1 sel2 now1 now2 s1 h1 h2 h3
  · intro db uid1 uid2 ruid sel1 sel2 now1 now2 s1 r2 u2 h1 h2 h3 h4 h5 h6 h7 h8 h9
    exact alloc_exhaustion db uid1 uid2 ruid sel1 sel2 now1 now2 s1 r2 u2
      h1 h2 h3 h4 h5 h6 h7 h8 h9

/-- C5 witness: the invariant part at a concrete input — sweeping the
store that holds one permanent hold preserves the one-hold-per-number
invariant. -/
theorem hold_mutual_exclusion_witness : HoldInv (cleanup_expired_holds dbPerm 400).1 :=
  hold_mutual_exclusion.1 dbPerm _ ⟨by decide, by decide⟩
    (Relation.ReflTransGen.single (Step.sweep dbPerm 400))


theorem newHolds_shape (db : DB) (uid : Nat) (ids : List Nat) (ruid : String) (now : Nat) :
    ∀ h ∈ (create_number_holds db uid ids ruid now).2,
      h.user_id = uid ∧ h.is_permanent = false ∧ h.first_retry_time = none ∧
        h.range_id = ruid := by
  intro h hh
  simp only [create_number_holds, List.mem_filterMap] at hh
  obtain ⟨i, _, hi⟩ := hh
  cases hf : db.phone_numbers.find? (·.id == i) with
  | none => rw [hf] at hi; exact absurd hi (by simp)
  | some y =>
    rw [hf] at hi
    simp only [Option.map_some', Option.some.injEq] at hi
    rw [← hi]
    exact ⟨rfl, rfl, rfl, rfl⟩

theorem newHolds_eq (db : DB) (uid : Nat) (ruid : String) (now : Nat)
    (hnd : (db.phone_numbers.map (·.id)).Nodup) :
    ∀ sel : List PhoneRow, (∀ p ∈ sel, p ∈ db.phone_numbers) →
      (create_number_holds db uid (sel.map (·.id)) ruid now).2 =
        sel.map (fun p =>
          ({ user_id := uid, phone_number_id := some p.id, phone_number_str := p.number,
             range_id := ruid, hold_start_time := now, first_retry_time := none,
             is_permanent := false } : Hold)) := by
  intro sel
  induction sel with
  | nil => intro _; rfl
  | cons p ps ih =>
    intro hmem
    have hf := find?_id_of_nodup hnd (hmem p (List.mem_cons_self p ps))
    have ih' := ih fun q hq => hmem q (List.mem_cons_of_mem p hq)
    simp only [create_number_holds, List.map_cons, List.filterMap_cons] at ih' ⊢
    rw [hf]
    simp only [Option.map_some']
    rw [ih']

theorem filter_filter_of_imp {α : Type} (p q : α → Bool) (l : List α)
    (h : ∀ a ∈ l, p a = true → q a = true) :
    (l.filter q).filter p = l.filter p := by
  induction l with
  | nil => rfl
  | cons a t ih =>
    have ih' := ih fun x hx => h x (List.mem_cons_of_mem a hx)
    simp only [List.filter_cons]
    by_cases hq : q a = true
    · rw [if_pos hq]
      simp only [List.filter_cons]
      by_cases hp : p a = true
      · rw [if_pos hp, if_pos hp, ih']
      · rw [if_neg hp, if_neg hp]
        exact ih'
    · rw [if_neg hq]
      by_cases hp : p a = true
      · exact absurd (h a (List.mem_cons_self a t) hp) hq
      · rw [if_neg hp]
        exact ih'

theorem cleanup_perm_filter (db : DB) (now : Nat) (uid : Nat) :
    (((cleanup_expired_holds db now).1).holds.filter (userPermPred uid)) =
      db.holds.filter (userPermPred uid) := by
  rw [cleanup_holds]
  refine filter_filter_of_imp _ _ _ fun a _ hp => ?_
  simp only [userPermPred, Bool.and_eq_true] at hp
  simp [expiredHold, hp.2]

theorem create_perm_filter (db : DB) (u2 : Nat) (ids : List Nat) (ruid : String)
    (now : Nat) (uid : Nat) :
    (((create_number_holds db u2 ids ruid now).1).holds.filter (userPermPred uid)) =
      db.holds.filter (userPermPred uid) := by
  rw [create_holds_eq, List.filter_append]
  have h2 : ((create_number_holds db u2 ids ruid now).2).filter (userPermPred uid) = [] := by
    rw [List.filter_eq_nil_iff]
    intro h hh
    have hs := (newHolds_shape db u2 ids ruid now h hh).2.1
    simp [userPermPred, hs]
  rw [h2, List.append_nil]
  refine filter_filter_of_imp _ _ _ fun a _ hp => ?_
  simp only [userPermPred, Bool.and_eq_true] at hp
  simp [hp.2]

theorem alloc_frame (db : DB) (uid : Nat) (ruid : String) (sel : List PhoneRow)
    (now : Nat) :
    ((view_sms_numbers db uid ruid sel now).1).phone_numbers = db.phone_numbers ∧
    ((view_sms_numbers db uid ruid sel now).1).ranges = db.ranges := by
  have hc := cleanup_frame db now
  simp only [view_sms_numbers]
  cases hr : get_range_by_unique_id (cleanup_expired_holds db now).1 ruid with
  | none => simp only [hr]; exact ⟨hc.2.2.2.2, hc.2.2.2.1⟩
  | some r =>
    simp only [hr]
    cases hu : findUser (cleanup_expired_holds db now).1 uid with
    | none => exact ⟨hc.2.2.2.2, hc.2.2.2.1⟩
    | some u =>
      dsimp only
      by_cases hb : u.balance < get_price_for_range (cleanup_expired_holds db now).1 ruid
      · rw [if_pos hb]; exact ⟨hc.2.2.2.2, hc.2.2.2.1⟩
      · rw [if_neg hb]
        by_cases he : (get_available_numbers_for_range (cleanup_expired_holds db now).1
            ruid SMS_FETCH_COUNT).isEmpty
        · rw [if_pos he]; exact ⟨hc.2.2.2.2, hc.2.2.2.1⟩
        · rw [if_neg he]
          by_cases hl : (get_available_numbers_for_range (cleanup_expired_holds db now).1
              ruid SMS_FETCH_COUNT).length < SMS_DISPLAY_COUNT
          · rw [if_pos hl]; exact ⟨hc.2.2.2.2, hc.2.2.2.1⟩
          · rw [if_neg hl]
            have hcr := create_holds_frame (cleanup_expired_holds db now).1 uid
              (sel.map (·.id)) ruid now
            exact ⟨hcr.2.2.2.2.trans hc.2.2.2.2, hcr.2.2.2.1.trans hc.2.2.2.1⟩


/-- C4: replace-on-reallocate.  After a successful allocation from range A
followed by a successful allocation from range B, the user's non-permanent
holds are exactly one fresh temporary hold per number of the B batch
(`is_permanent` false, `first_retry_time` null, pointing at the B numbers
and carrying range B's id), the user's permanent holds are exactly what
they were before both allocations, and every number of the A batch is back
in range A's available pool (catalogued in range A and referenced by no
hold). -/
theorem replace_on_reallocate (db : DB) (uid : Nat) (ridA ridB : String)
    (selA selB : List PhoneRow) (now1 now2 : Nat) (sA sB : List PhoneRow)
    (hnd : (db.phone_numbers.map (·.id)).Nodup)
    (hselA : SelOk db ridA selA now1)
    (hsuccA : (view_sms_numbers db uid ridA selA now1).2 = .allocated sA)
    (hselB : SelOk (view_sms_numbers db uid ridA selA now1).1 ridB selB now2)
    (hsuccB : (view_sms_numbers (view_sms_numbers db uid ridA selA now1).1
      uid ridB selB now2).2 = .allocated sB) :
    ((((view_sms_numbers (view_sms_numbers db uid ridA selA now1).1 uid ridB selB
        now2).1).holds.filter (userTempPred uid)).map
        (fun h => (h.phone_number_id, h.range_id, h.is_permanent, h.first_retry_time)) =
      selB.map (fun p => (some p.id, ridB, false, (none : Option Nat)))) ∧
    (((view_sms_numbers (view_sms_numbers db uid ridA selA now1).1 uid ridB selB
        now2).1).holds.filter (userPermPred uid) =
      db.holds.filter (userPermPred uid)) ∧
    (∀ p ∈ selA, p ∈ availAll (view_sms_numbers (view_sms_numbers db uid ridA selA
      now1).1 uid ridB selB now2).1 ridA) := by
  set d1 := (view_sms_numbers db uid ridA selA now1).1 with hd1
  set d2 := (view_sms_numbers d1 uid ridB selB now2).1 with hd2
  have hstateA : d1 = (create_number_holds (cleanup_expired_holds db now1).1 uid
      (selA.map (·.id)) ridA now1).1 := by
    rw [hd1]
    exact (alloc_success_state db uid ridA selA now1 sA hsuccA).1
  have hstateB : d2 = (create_number_holds (cleanup_expired_holds d1 now2).1 uid
      (selB.map (·.id)) ridB now2).1 := by
    rw [hd2]
    exact (alloc_success_state d1 uid ridB selB now2 sB hsuccB).1
  have hpnA : d1.phone_numbers = db.phone_numbers := by
    rw [hd1]
    exact (alloc_frame db uid ridA selA now1).1
  have hrgA : d1.ranges = db.ranges := by
    rw [hd1]
    exact (alloc_frame db uid ridA selA now1).2
  have hndB : (((cleanup_expired_holds d1 now2).1).phone_numbers.map (·.id)).Nodup := by
    rw [(cleanup_frame d1 now2).2.2.2.2, hpnA]
    exact hnd
  have hmemB : ∀ p ∈ selB, p ∈ ((cleanup_expired_holds d1 now2).1).phone_numbers :=
    fun p hp => (mem_availAll (mem_avail_sub (hselB.2.2 p hp))).1
  have hNB := newHolds_eq (cleanup_expired_holds d1 now2).1 uid ridB now2 hndB selB hmemB
  refine ⟨?_, ?_, ?_⟩
  · rw [hstateB, create_holds_eq, List.filter_append]
    have hkept : ((((cleanup_expired_holds d1 now2).1).holds.filter
        (fun h => !(h.user_id == uid && !h.is_permanent))).filter (userTempPred uid)) = [] := by
      rw [List.filter_eq_nil_iff]
      intro a ha
      have := (List.mem_filter.mp ha).2
      simp only [userTempPred]
      simp only [Bool.not_eq_true'] at this
      simp [this]
    rw [hkept, List.nil_append]
    have hfull : ((create_number_holds (cleanup_expired_holds d1 now2).1 uid
        (selB.map (·.id)) ridB now2).2).filter (userTempPred uid) =
        (create_number_holds (cleanup_expired_holds d1 now2).1 uid
        (selB.map (·.id)) ridB now2).2 := by
      rw [List.filter_eq_self]
      intro a ha
      have hs := newHolds_shape (cleanup_expired_holds d1 now2).1 uid
        (selB.map (·.id)) ridB now2 a ha
      simp [userTempPred, hs.1, hs.2.1]
    rw [hfull, hNB, List.map_map]
    rfl
  · rw [hstateB, create_perm_filter, cleanup_perm_filter, hstateA,
      create_perm_filter, cleanup_perm_filter]
  · intro p hp
    obtain ⟨hpA_pn, hpA_unheld, rA, hrA0, hprangeA⟩ :=
      mem_availAll (mem_avail_sub (hselA.2.2 p hp))
    have hrgDb : get_range_by_unique_id db ridA = some rA := by
      rw [← get_range_congr (cleanup_frame db now1).2.2.2.1 ridA]
      exact hrA0
    have hrg2 : d2.ranges = db.ranges := by
      have e2 : d2.ranges = d1.ranges := by
        rw [hd2]
        exact (alloc_frame d1 uid ridB selB now2).2
      rw [e2, hrgA]
    have hrA2 : get_range_by_unique_id d2 ridA = some rA := by
      rw [get_range_congr hrg2 ridA]
      exact hrgDb
    have hpn2 : d2.phone_numbers = db.phone_numbers := by
      have e2 : d2.phone_numbers = d1.phone_numbers := by
        rw [hd2]
        exact (alloc_frame d1 uid ridB selB now2).1
      rw [e2, hpnA]
    have hno : p.id ∉ heldPhoneIds d2 := by
      intro hmem
      obtain ⟨h, hhmem, hhpid⟩ := List.mem_filterMap.mp hmem
      rw [hstateB, create_holds_eq] at hhmem
      rcases List.mem_append.mp hhmem with hk | hn
      · have hkeep := (List.mem_filter.mp hk).2
        have hmem2 : h ∈ ((cleanup_expired_holds d1 now2).1).holds :=
          (List.mem_filter.mp hk).1
        have hmem1 : h ∈ d1.holds := by
          rw [cleanup_holds] at hmem2
          exact List.mem_of_mem_filter hmem2
        rw [hstateA, create_holds_eq] at hmem1
        rcases List.mem_append.mp hmem1 with hk1 | hnA
        · have hmem0 : h ∈ ((cleanup_expired_holds db now1).1).holds :=
            List.mem_of_mem_filter hk1
          exact hpA_unheld (List.mem_filterMap.mpr ⟨h, hmem0, hhpid⟩)
        · have hs := newHolds_shape (cleanup_expired_holds db now1).1 uid
            (selA.map (·.id)) ridA now1 h hnA
          simp [hs.1, hs.2.1] at hkeep
      · have hpidB := newHolds_pid (cleanup_expired_holds d1 now2).1 uid ridB now2 selB hmemB
        have hpin : p.id ∈ selB.map (·.id) := by
          rw [← hpidB]
          exact List.mem_filterMap.mpr ⟨h, hn, hhpid⟩
        obtain ⟨q, hq, hqid⟩ := List.mem_map.mp hpin
        exact alloc_no_overlap db uid uid ridA ridB selA selB now1 now2 sA
          hselA hsuccA hselB p hp q hq hqid.symm
    unfold availAll
    rw [hrA2]
    refine List.mem_filter.mpr ⟨by rw [hpn2]; rw [(cleanup_frame db now1).2.2.2.2] at hpA_pn; exact hpA_pn, ?_⟩
    simp only [Bool.and_eq_true, beq_iff_eq, Bool.not_eq_true']
    refine ⟨hprangeA, ?_⟩
    rw [← Bool.not_eq_true]
    intro hc
    exact hno (List.elem_iff.mp hc)

/-- C4 witness: the theorem on the base store with the first-20 batches of
ranges A and B — in particular after the two allocations the user's
permanent holds are unchanged (there were none). -/
theorem replace_on_reallocate_witness :
    ((view_sms_numbers (view_sms_numbers baseDb 1 "ra" selA20 0).1 1 "rb" selB20
      5).1).holds.filter (userPermPred 1) = baseDb.holds.filter (userPermPred 1) :=
  (replace_on_reallocate baseDb 1 "ra" "rb" selA20 selB20 0 5 selA20 selB20
    (by decide) (by exact ⟨by decide, by decide, by decide⟩) (by decide)
    (by exact ⟨by decide, by decide, by decide⟩) (by decide)).2.1


theorem find?_append_left {α : Type} {l l' : List α} {p : α → Bool} {x : α}
    (h : l.find? p = some x) : (l ++ l').find? p = some x := by
  rw [List.find?_append, h]
  rfl

theorem import_row_settled_noop (uid_of : String → String) (st : DB × Nat × Nat)
    (row : String × String) (h : RowSettled uid_of st.1 row) :
    import_row uid_of st row = st := by
  obtain ⟨h1, h2, r, hr, p, hp, hpr⟩ := h
  have hb1 : (row.1 == "") = false := by simp [h1]
  have hb2 : (row.2 == "") = false := by simp [h2]
  simp only [import_row, hb1, hb2]
  rw [if_neg (by simp)]
  simp only [hr, hp]
  rw [if_neg (by simp [hpr])]

theorem find?_reassign (l : List PhoneRow) (num : String) (rid : Nat) {p0 : PhoneRow}
    (hp : l.find? (·.number == num) = some p0) :
    (updateFirst (·.number == num) (fun q => { q with range_id := rid }) l).find?
      (·.number == num) = some { p0 with range_id := rid } := by
  rw [find?_updateFirst_self (fun x => x.number == num)
    (fun q => { q with range_id := rid }) (fun x hx => hx) l, hp]
  rfl

theorem find?_other_number (l : List PhoneRow) (num numB : String) (rid : Nat)
    (hne : num ≠ numB) :
    (updateFirst (·.number == numB) (fun q => { q with range_id := rid }) l).find?
      (·.number == num) = l.find? (·.number == num) := by
  refine find?_updateFirst_of_disjoint _ _ _ ?_ ?_ l
  · intro x hx
    simp only [beq_iff_eq] at hx
    simp only [beq_eq_false_iff_ne, ne_eq]
    intro he
    exact hne (by rw [← he, hx])
  · exact fun x _ => rfl

theorem find?_new_number (l : List PhoneRow) (num : String) (i rid : Nat)
    (hp : l.find? (·.number == num) = none) :
    (l ++ [({ id := i, range_id := rid, number := num } : PhoneRow)]).find?
      (·.number == num) = some { id := i, range_id := rid, number := num } := by
  rw [List.find?_append, hp]
  simp

theorem import_row_settles (uid_of : String → String) (st : DB × Nat × Nat)
    (row : String × String) (h1 : row.1 ≠ "") (h2 : row.2 ≠ "") :
    RowSettled uid_of (import_row uid_of st row).1 row := by
  have hb1 : (row.1 == "") = false := by simp [h1]
  have hb2 : (row.2 == "") = false := by simp [h2]
  refine ⟨h1, h2, ?_⟩
  simp only [import_row, hb1, hb2]
  rw [if_neg (by simp)]
  cases hr : (st.1).ranges.find? (·.unique_id == uid_of row.1) with
  | some r =>
    simp only [hr]
    cases hp : (st.1).phone_numbers.find? (·.number == row.2) with
    | some p =>
      simp only [hp]
      by_cases hne : p.range_id ≠ r.id
      · rw [if_pos hne]
        exact ⟨r, hr, { p with range_id := r.id },
          find?_reassign (st.1).phone_numbers row.2 r.id hp, rfl⟩
      · rw [if_neg hne]
        exact ⟨r, hr, p, hp, not_ne_iff.mp hne⟩
    | none =>
      simp only [hp]
      exact ⟨r, hr, { id := (st.1).nextPhoneId, range_id := r.id, number := row.2 },
        find?_new_number (st.1).phone_numbers row.2 (st.1).nextPhoneId r.id hp, rfl⟩
  | none =>
    simp only [hr]
    have hrnew : ((st.1).ranges ++
        [({ id := (st.1).nextRangeId, unique_id := uid_of row.1, name := row.1 } :
          RangeRow)]).find? (·.unique_id == uid_of row.1) =
        some { id := (st.1).nextRangeId, unique_id := uid_of row.1, name := row.1 } := by
      rw [List.find?_append, hr]
      simp
    cases hp : (st.1).phone_numbers.find? (·.number == row.2) with
    | some p =>
      simp only [hp]
      by_cases hne : p.range_id ≠ (st.1).nextRangeId
      · rw [if_pos hne]
        exact ⟨_, hrnew, { p with range_id := (st.1).nextRangeId },
          find?_reassign (st.1).phone_numbers row.2 (st.1).nextRangeId hp, rfl⟩
      · rw [if_neg hne]
        exact ⟨_, hrnew, p, hp, not_ne_iff.mp hne⟩
    | none =>
      simp only [hp]
      exact ⟨_, hrnew,
        { id := (st.1).nextPhoneId, range_id := (st.1).nextRangeId, number := row.2 },
        find?_new_number (st.1).phone_numbers row.2 (st.1).nextPhoneId
          (st.1).nextRangeId hp, rfl⟩

theorem import_row_preserves_settled (uid_of : String → String) (st : DB × Nat × Nat)
    (row row' : String × String) (h : RowSettled uid_of st.1 row)
    (hdiff : row.2 ≠ row'.2) :
    RowSettled uid_of ((import_row uid_of st row').1) row := by
  obtain ⟨h1, h2, r, hr, p, hp, hpr⟩ := h
  refine ⟨h1, h2, ?_⟩
  by_cases hempty : (row'.1 == "" || row'.2 == "") = true
  · simp only [import_row, if_pos hempty]
    exact ⟨r, hr, p, hp, hpr⟩
  · simp only [import_row]
    rw [if_neg hempty]
    cases hrf : (st.1).ranges.find? (·.unique_id == uid_of row'.1) with
    | some r' =>
      simp only [hrf]
      cases hpf : (st.1).phone_numbers.find? (·.number == row'.2) with
      | some p' =>
        simp only [hpf]
        by_cases hne' : p'.range_id ≠ r'.id
        · rw [if_pos hne']
          exact ⟨r, hr, p,
            (find?_other_number (st.1).phone_numbers row.2 row'.2 r'.id hdiff).trans hp,
            hpr⟩
        · rw [if_neg hne']
          exact ⟨r, hr, p, hp, hpr⟩
      | none =>
        simp only [hpf]
        exact ⟨r, hr, p, find?_append_left hp, hpr⟩
    | none =>
      simp only [hrf]
      cases hpf : (st.1).phone_numbers.find? (·.number == row'.2) with
      | some p' =>
        simp only [hpf]
        by_cases hne' : p'.range_id ≠ (st.1).nextRangeId
        · rw [if_pos hne']
          exact ⟨r, find?_append_left hr, p,
            (find?_other_number (st.1).phone_numbers row.2 row'.2
              (st.1).nextRangeId hdiff).trans hp, hpr⟩
        · rw [if_neg hne']
          exact ⟨r, find?_append_left hr, p, hp, hpr⟩
      | none =>
        simp only [hpf]
        exact ⟨r, find?_append_left hr, p, find?_append_left hp, hpr⟩

theorem fold_preserves_settled (uid_of : String → String) (row : String × String) :
    ∀ (rows : List (String × String)) (st : DB × Nat × Nat),
      RowSettled uid_of st.1 row → (∀ x ∈ rows, row.2 ≠ x.2) →
      RowSettled uid_of (rows.foldl (import_row uid_of) st).1 row
  | [], _, h, _ => h
  | x :: rows, st, h, hne => by
    simp only [List.foldl_cons]
    exact fold_preserves_settled uid_of row rows _
      (import_row_preserves_settled uid_of st row x h (hne x (List.mem_cons_self _ _)))
      (fun y hy => hne y (List.mem_cons_of_mem _ hy))

theorem import_fold_settled (uid_of : String → String) :
    ∀ (rows : List (String × String)) (st : DB × Nat × Nat),
      (∀ x ∈ rows, x.1 ≠ "" ∧ x.2 ≠ "") → ((rows.map Prod.snd).Nodup) →
      ∀ row ∈ rows, RowSettled uid_of (rows.foldl (import_row uid_of) st).1 row
  | [], _, _, _, row, hrow => absurd hrow (List.not_mem_nil row)
  | x :: rows, st, hwf, hnd, row, hrow => by
    rw [List.map_cons] at hnd
    simp only [List.foldl_cons]
    rcases List.mem_cons.mp hrow with heq | hmem
    · subst heq
      refine fold_preserves_settled uid_of row rows _
        (import_row_settles uid_of st row (hwf row hrow).1 (hwf row hrow).2) ?_
      intro y hy heq2
      exact (List.nodup_cons.mp hnd).1 (by rw [heq2]; exact List.mem_map.mpr ⟨y, hy, rfl⟩)
    · exact import_fold_settled uid_of rows _
        (fun y hy => hwf y (List.mem_cons_of_mem _ hy))
        (List.nodup_cons.mp hnd).2 row hmem

theorem fold_settled_noop (uid_of : String → String) :
    ∀ (rows : List (String × String)) (st : DB × Nat × Nat),
      (∀ row ∈ rows, RowSettled uid_of st.1 row) →
      rows.foldl (import_row uid_of) st = st
  | [], _, _ => rfl
  | x :: rows, st, h => by
    simp only [List.foldl_cons]
    rw [import_row_settled_noop uid_of st x (h x (List.mem_cons_self _ _))]
    exact fold_settled_noop uid_of rows st (fun y hy => h y (List.mem_cons_of_mem _ hy))


/-- C10 counterexample: the importer does not reject a number already
assigned to a different range.  On `db10` (number 123 catalogued in range
X), importing the row (Y, 123) creates range Y and re-points 123 at Y —
counted as a success — instead of rejecting the row and leaving 123 in X.
The behaviour is independent of the name-to-id hash (instantiated with
the identity map here). -/
theorem import_reassigns_counterexample :
    ((import_csv_rows (fun n => n) db10 [("Y", "123")]).1).phone_numbers =
      [{ id := 1, range_id := 2, number := "123" }] ∧
    ((import_csv_rows (fun n => n) db10 [("Y", "123")]).1).ranges =
      [{ id := 1, unique_id := "X", name := "X" },
        { id := 2, unique_id := "Y", name := "Y" }] ∧
    (import_csv_rows (fun n => n) db10 [("Y", "123")]).2.1 = 1 ∧
    (import_csv_rows (fun n => n) db10 [("Y", "123")]).2.2 = 0 := by
  decide

/-- C10 amended: re-importing the same rows is idempotent — the range id
is derived deterministically from the name, so ranges and numbers merge
and the second import changes nothing and counts zero successes and zero
errors — but a number already assigned to a different range is not
rejected: the importer re-points it at the newly imported range (and
counts it a success), changing its range assignment. -/
theorem import_idempotent_reassigns :
    (∀ (uid_of : String → String) (db : DB) (rows : List (String × String)),
      (∀ x ∈ rows, x.1 ≠ "" ∧ x.2 ≠ "") → ((rows.map Prod.snd).Nodup) →
      import_csv_rows uid_of (import_csv_rows uid_of db rows).1 rows =
        ((import_csv_rows uid_of db rows).1, 0, 0)) ∧
    (∀ (uid_of : String → String) (db : DB) (s e : Nat) (name num : String)
      (p : PhoneRow) (r : RangeRow),
      name ≠ "" → num ≠ "" →
      db.ranges.find? (·.unique_id == uid_of name) = some r →
      db.phone_numbers.find? (·.number == num) = some p →
      p.range_id ≠ r.id →
      ((import_row uid_of (db, s, e) (name, num)).1).phone_numbers.find?
          (·.number == num) = some { p with range_id := r.id } ∧
        (import_row uid_of (db, s, e) (name, num)).2.1 = s + 1) := by
  constructor
  · intro uid_of db rows hwf hnd
    unfold import_csv_rows
    exact fold_settled_noop uid_of rows _
      (fun row hrow => import_fold_settled uid_of rows (db, 0, 0) hwf hnd row hrow)
  · intro uid_of db s e name num p r h1 h2 hr hp hne
    have hb1 : (name == "") = false := by simp [h1]
    have hb2 : (num == "") = false := by simp [h2]
    simp only [import_row, hb1, hb2]
    rw [if_neg (by simp)]
    simp only [hr, hp]
    rw [if_pos hne]
    exact ⟨find?_reassign db.phone_numbers num r.id hp, rfl⟩

/-- C10 witness: the amended theorem at concrete inputs — re-importing
(Y, 123) into the store that already reflects it changes nothing, and a
single (Y, 123) row on `db10b` (123 assigned to X, range Y present)
re-points 123 at range Y, counting one success. -/
theorem import_idempotent_reassigns_witness :
    (import_csv_rows (fun n => n) (import_csv_rows (fun n => n) db10 [("Y", "123")]).1
        [("Y", "123")] =
      ((import_csv_rows (fun n => n) db10 [("Y", "123")]).1, 0, 0)) ∧
    (((import_row (fun n => n) (db10b, 0, 0) ("Y", "123")).1).phone_numbers.find?
        (·.number == "123") =
      some { id := 1, range_id := 2, number := "123" } ∧
      (import_row (fun n => n) (db10b, 0, 0) ("Y", "123")).2.1 = 1) :=
  ⟨import_idempotent_reassigns.1 (fun n => n) db10 [("Y", "123")]
      (by decide) (by decide),
    import_idempotent_reassigns.2 (fun n => n) db10b 0 0 "Y" "123"
      { id := 1, range_id := 1, number := "123" }
      { id := 2, unique_id := "Y", name := "Y" }
      (by decide) (by decide) (by decide) (by decide) (by decide)⟩

end Argsms
